import Mathlib

/-!
Shallow embedding of the chat-history storage layer and reliability
primitives of the agentic-web starter kit, together with theorems checking
the natural-language specification against the code.

The local adapter (`LocalStorageChatAdapter`) is embedded over an explicit
environment holding the browser flag and the persisted document; the remote
adapter (`SupabaseChatAdapter`) over a relational-store model; the retry
helper and circuit breaker as executable functions / step machines.
JavaScript `Date` values are modelled as `Nat` timestamps passed explicitly
(`now`), and records keyed by strings as insertion-ordered key/value lists.
-/

namespace AgenticWeb

/-- `Message.role`: one of `user | assistant | system` (interface.ts). -/
inductive Role
  | user
  | assistant
  | system
deriving DecidableEq, Repr

/-- One entry of `Message.metadata.toolCalls` (interface.ts). Inputs and
outputs are opaque JSON values; modelled as strings. -/
structure ToolCall where
  tool : String
  input : String
  output : String
deriving DecidableEq, Repr

/-- `Message.metadata` optional bag (interface.ts). Each field is optional. -/
structure MsgMetadata where
  tokens : Option Nat := none
  model : Option String := none
  toolCalls : Option (List ToolCall) := none
  error : Option String := none
deriving DecidableEq, Repr

/-- `Message` (interface.ts). Timestamps are `Nat`. -/
structure Message where
  id : String
  role : Role
  content : String
  timestamp : Nat
  metadata : Option MsgMetadata := none
deriving DecidableEq, Repr

/-- `Conversation.metadata` optional bag (interface.ts). -/
structure ConvMetadata where
  totalTokens : Option Nat := none
  messageCount : Option Nat := none
  userId : Option String := none
deriving DecidableEq, Repr

/-- `Conversation` (interface.ts). -/
structure Conversation where
  id : String
  title : Option String := none
  messages : List Message := []
  createdAt : Nat
  updatedAt : Nat
  metadata : Option ConvMetadata := none
deriving DecidableEq, Repr

/-- `Partial<Message>` as passed to `updateMessage`: each field either
absent or supplied. -/
structure MessageUpdate where
  id : Option String := none
  role : Option Role := none
  content : Option String := none
  timestamp : Option Nat := none
  metadata : Option MsgMetadata := none
deriving DecidableEq, Repr

/-- `Partial<Conversation>` as passed to `updateConversation`. -/
structure ConversationUpdate where
  id : Option String := none
  title : Option String := none
  messages : Option (List Message) := none
  createdAt : Option Nat := none
  updatedAt : Option Nat := none
  metadata : Option ConvMetadata := none
deriving DecidableEq, Repr

/-- `Object.assign(message, updates)` in `LocalStorageChatAdapter.updateMessage`:
every supplied field overwrites the existing one; a supplied `metadata` bag
replaces the existing bag wholesale. -/
def applyMessageUpdate (m : Message) (u : MessageUpdate) : Message :=
  { id := u.id.getD m.id
    role := u.role.getD m.role
    content := u.content.getD m.content
    timestamp := u.timestamp.getD m.timestamp
    metadata := match u.metadata with
      | some md => some md
      | none => m.metadata }

/-- `Object.assign(conversation, updates)` followed by
`conversation.updatedAt = new Date()` in
`LocalStorageChatAdapter.updateConversation`. -/
def applyConversationUpdate (c : Conversation) (u : ConversationUpdate)
    (now : Nat) : Conversation :=
  { id := u.id.getD c.id
    title := match u.title with
      | some t => some t
      | none => c.title
    messages := u.messages.getD c.messages
    createdAt := u.createdAt.getD c.createdAt
    updatedAt := now
    metadata := match u.metadata with
      | some md => some md
      | none => c.metadata }

/-- The persisted document's `conversations` record
(`Record<string, Conversation>`): insertion-ordered key/value pairs
(`Object.values` iterates in insertion order). -/
abbrev ConvRecord := List (String × Conversation)

/-- `data.conversations[cid]` lookup. -/
def lookupConv (convs : ConvRecord) (cid : String) : Option Conversation :=
  (convs.find? (fun p => p.1 == cid)).map (·.2)

/-- In-place mutation of the value at key `cid` (key position preserved). -/
def updateConv (convs : ConvRecord) (cid : String)
    (f : Conversation → Conversation) : ConvRecord :=
  convs.map (fun p => if p.1 == cid then (p.1, f p.2) else p)

/-- `data.conversations[cid] = c`: overwrite in place if the key exists,
otherwise append (record insertion order). -/
def setConv (convs : ConvRecord) (cid : String) (c : Conversation) :
    ConvRecord :=
  if convs.any (fun p => p.1 == cid) then updateConv convs cid (fun _ => c)
  else convs ++ [(cid, c)]

/-- `Object.values(data.conversations)`. -/
def convValues (convs : ConvRecord) : List Conversation := convs.map (·.2)

/-- Sum of `metadata.tokens` (0 when absent) over a message list;
the value `metadata.totalTokens` is supposed to cache. -/
def sumTokens (msgs : List Message) : Nat :=
  (msgs.map (fun m => ((m.metadata.bind MsgMetadata.tokens).getD 0))).sum

/-- Decidable form of the denormalized-cache invariant: when present,
`metadata.totalTokens` equals the token sum and `metadata.messageCount`
equals the message-list length. -/
def cacheOk (c : Conversation) : Bool :=
  (match c.metadata.bind ConvMetadata.totalTokens with
    | some n => n == sumTokens c.messages
    | none => true) &&
  (match c.metadata.bind ConvMetadata.messageCount with
    | some n => n == c.messages.length
    | none => true)

/-- Stable insertion (JS `Array.prototype.sort` is stable) keeping the list
sorted by `key` descending: the new element goes before the first element
whose key is not greater. -/
def insertDescBy {α : Type} (key : α → Nat) (c : α) : List α → List α
  | [] => [c]
  | d :: ds => if key c < key d then d :: insertDescBy key c ds else c :: d :: ds

/-- Stable sort by `key` descending, as `sort((a, b) => key b - key a)`. -/
def sortDescBy {α : Type} (key : α → Nat) : List α → List α
  | [] => []
  | c :: cs => insertDescBy key c (sortDescBy key cs)

/-- Stable insertion keeping the list sorted by `key` ascending: the new
element goes before the first element whose key is not smaller. -/
def insertAscBy {α : Type} (key : α → Nat) (c : α) : List α → List α
  | [] => [c]
  | d :: ds => if key d < key c then d :: insertAscBy key c ds else c :: d :: ds

/-- Stable sort by `key` ascending, as `sort((a, b) => key a - key b)`. -/
def sortAscBy {α : Type} (key : α → Nat) : List α → List α
  | [] => []
  | c :: cs => insertAscBy key c (sortAscBy key cs)

namespace LocalStorageChatAdapter

/-- Execution environment of the local adapter: whether `window` is defined,
and the parsed contents of the single localStorage document. -/
structure LocalEnv where
  browser : Bool
  stored : ConvRecord
deriving DecidableEq, Repr

/-- `getAll()`: in a non-browser context the document is the empty one. -/
def getAll (env : LocalEnv) : ConvRecord :=
  if env.browser then env.stored else []

/-- `saveAll(data)`: a no-op in a non-browser context. -/
def saveAll (env : LocalEnv) (convs : ConvRecord) : LocalEnv :=
  if env.browser then { env with stored := convs } else env

/-- The in-memory mutation `saveMessage` performs on the target
conversation: push the message, bump `updatedAt`, recompute `messageCount`
and add the new message's tokens to `totalTokens` (spreading the previous
metadata bag). -/
def appendRecompute (now : Nat) (m : Message) (c : Conversation) :
    Conversation :=
  { c with
    messages := c.messages ++ [m]
    updatedAt := now
    metadata := some
      { totalTokens := some
          (((c.metadata.bind ConvMetadata.totalTokens).getD 0) +
            ((m.metadata.bind MsgMetadata.tokens).getD 0))
        messageCount := some (c.messages.length + 1)
        userId := c.metadata.bind ConvMetadata.userId } }

/-- `saveMessage(conversationId, message)`. -/
def saveMessage (env : LocalEnv) (now : Nat) (cid : String) (m : Message) :
    Except String LocalEnv :=
  let convs := getAll env
  match lookupConv convs cid with
  | none => .error ("Conversation " ++ cid ++ " not found")
  | some _ =>
    .ok (saveAll env (updateConv convs cid (appendRecompute now m)))

/-- `getMessages(conversationId)`: the conversation's messages, `[]` when
the conversation is absent. -/
def getMessages (env : LocalEnv) (cid : String) : List Message :=
  match lookupConv (getAll env) cid with
  | some c => c.messages
  | none => []

/-- Remove the first message with the given id (`findIndex` + `splice`). -/
def removeFirstMsg (mid : String) : List Message → List Message
  | [] => []
  | m :: ms => if m.id == mid then ms else m :: removeFirstMsg mid ms

/-- The per-conversation scan of `deleteMessage`: the first conversation
containing the message id has it removed and its `updatedAt` bumped;
`none` when no conversation contains it. -/
def deleteMessageScan (now : Nat) (mid : String) :
    ConvRecord → Option ConvRecord
  | [] => none
  | p :: ps =>
    if p.2.messages.any (fun m => m.id == mid) then
      some ((p.1,
        { p.2 with messages := removeFirstMsg mid p.2.messages
                   updatedAt := now }) :: ps)
    else
      match deleteMessageScan now mid ps with
      | some ps2 => some (p :: ps2)
      | none => none

/-- `deleteMessage(messageId)`. -/
def deleteMessage (env : LocalEnv) (now : Nat) (mid : String) :
    Except String LocalEnv :=
  match deleteMessageScan now mid (getAll env) with
  | some convs => .ok (saveAll env convs)
  | none => .error ("Message " ++ mid ++ " not found")

/-- Update the first message with the given id (`find` + `Object.assign`). -/
def updateFirstMsg (mid : String) (u : MessageUpdate) :
    List Message → List Message
  | [] => []
  | m :: ms =>
    if m.id == mid then applyMessageUpdate m u :: ms
    else m :: updateFirstMsg mid u ms

/-- The per-conversation scan of `updateMessage`. -/
def updateMessageScan (now : Nat) (mid : String) (u : MessageUpdate) :
    ConvRecord → Option ConvRecord
  | [] => none
  | p :: ps =>
    if p.2.messages.any (fun m => m.id == mid) then
      some ((p.1,
        { p.2 with messages := updateFirstMsg mid u p.2.messages
                   updatedAt := now }) :: ps)
    else
      match updateMessageScan now mid u ps with
      | some ps2 => some (p :: ps2)
      | none => none

/-- `updateMessage(messageId, updates)`. -/
def updateMessage (env : LocalEnv) (now : Nat) (mid : String)
    (u : MessageUpdate) : Except String LocalEnv :=
  match updateMessageScan now mid u (getAll env) with
  | some convs => .ok (saveAll env convs)
  | none => .error ("Message " ++ mid ++ " not found")

/-- `listConversations()`: `Object.values` sorted by `updatedAt` descending. -/
def listConversations (env : LocalEnv) : List Conversation :=
  sortDescBy Conversation.updatedAt (convValues (getAll env))

/-- `getConversation(conversationId)`: `null` (here `none`) when absent. -/
def getConversation (env : LocalEnv) (cid : String) : Option Conversation :=
  lookupConv (getAll env) cid

/-- `createConversation(title?)`: fresh uuid supplied as `freshId`;
`title || 'New Conversation'` (empty string is falsy); zeroed metadata;
both timestamps `now`. -/
def createConversation (env : LocalEnv) (now : Nat) (freshId : String)
    (title : Option String) : Conversation × LocalEnv :=
  let conversation : Conversation :=
    { id := freshId
      title := some (match title with
        | some t => if t == "" then "New Conversation" else t
        | none => "New Conversation")
      messages := []
      createdAt := now
      updatedAt := now
      metadata := some { totalTokens := some 0, messageCount := some 0,
                         userId := none } }
  (conversation,
    saveAll env (setConv (getAll env) conversation.id conversation))

/-- `updateConversation(conversationId, updates)`. -/
def updateConversation (env : LocalEnv) (now : Nat) (cid : String)
    (u : ConversationUpdate) : Except String LocalEnv :=
  let convs := getAll env
  match lookupConv convs cid with
  | none => .error ("Conversation " ++ cid ++ " not found")
  | some _ =>
    .ok (saveAll env (updateConv convs cid
      (fun c => applyConversationUpdate c u now)))

/-- `deleteConversation(conversationId)`. -/
def deleteConversation (env : LocalEnv) (cid : String) :
    Except String LocalEnv :=
  let convs := getAll env
  match lookupConv convs cid with
  | none => .error ("Conversation " ++ cid ++ " not found")
  | some _ => .ok (saveAll env (convs.filter (fun p => !(p.1 == cid))))

/-- `clearAll()`: remove the storage key (browser only). -/
def clearAll (env : LocalEnv) : LocalEnv :=
  if env.browser then { env with stored := [] } else env

end LocalStorageChatAdapter

/-- A `conversations` row of the remote store (`id`, `title`, `user_id`,
`created_at`, `updated_at`, `metadata` JSON column). -/
structure ConvRow where
  id : String
  title : Option String := none
  user_id : Option String := none
  created_at : Nat
  updated_at : Nat
  metadata : Option ConvMetadata := none
deriving DecidableEq, Repr

/-- A `messages` row of the remote store (`id`, `conversation_id`, `role`,
`content`, `created_at`, `metadata`); the adapter always inserts a metadata
object (`message.metadata || {}`). -/
structure MessageRow where
  id : String
  conversation_id : String
  role : Role
  content : String
  created_at : Nat
  metadata : MsgMetadata := {}
deriving DecidableEq, Repr

/-- Modelled from the spec: the relational backing store behind the Supabase
client is not in src/; per the spec it holds a `conversations` table and a
`messages` table related by foreign key, with cascade deletion of messages,
service-side ordering on request, single-row fetch misses reported as a
distinct not-found condition, and primary-key/foreign-key violations
reported as errors. Rows are kept in insertion order. -/
structure SupaDB where
  conversations : List ConvRow := []
  messages : List MessageRow := []
deriving DecidableEq, Repr

/-- Foreign-key integrity of the modelled store: every message row
references an existing conversation row. -/
def SupaDB.WF (db : SupaDB) : Prop :=
  ∀ m ∈ db.messages, ∃ c ∈ db.conversations, c.id = m.conversation_id

namespace SupabaseChatAdapter

/-- Row-to-entity mapping `mapToMessage`. -/
def mapToMessage (row : MessageRow) : Message :=
  { id := row.id
    role := row.role
    content := row.content
    timestamp := row.created_at
    metadata := some row.metadata }

/-- Row-to-entity mapping `mapToConversation`, given the embedded message
rows: messages are re-sorted client-side ascending by timestamp. -/
def mapToConversation (row : ConvRow) (msgRows : List MessageRow) :
    Conversation :=
  { id := row.id
    title := row.title
    messages := sortAscBy Message.timestamp (msgRows.map mapToMessage)
    createdAt := row.created_at
    updatedAt := row.updated_at
    metadata := row.metadata }

/-- The message rows of one conversation, in table order. -/
def rowsOf (db : SupaDB) (cid : String) : List MessageRow :=
  db.messages.filter (fun r => r.conversation_id == cid)

/-- `saveMessage`: insert the message row (primary-key and foreign-key
violations surface as wrapped errors), then update the parent
conversation's `updated_at` in a second step. -/
def saveMessage (db : SupaDB) (now : Nat) (cid : String) (m : Message) :
    Except String SupaDB :=
  if db.messages.any (fun r => r.id == m.id) then
    .error "Failed to save message: duplicate key value violates unique constraint"
  else if !(db.conversations.any (fun r => r.id == cid)) then
    .error "Failed to save message: insert violates foreign key constraint"
  else
    .ok { db with
      messages := db.messages ++
        [{ id := m.id
           conversation_id := cid
           role := m.role
           content := m.content
           created_at := m.timestamp
           metadata := m.metadata.getD {} }]
      conversations := db.conversations.map (fun r =>
        if r.id == cid then { r with updated_at := now } else r) }

/-- `getMessages`: select by `conversation_id` ordered ascending by
`created_at` (service-side). -/
def getMessages (db : SupaDB) (cid : String) : List Message :=
  (sortAscBy MessageRow.created_at (rowsOf db cid)).map mapToMessage

/-- `deleteMessage`: delete rows matching the id; no error when none match. -/
def deleteMessage (db : SupaDB) (mid : String) : SupaDB :=
  { db with messages := db.messages.filter (fun r => !(r.id == mid)) }

/-- `updateMessage`: write only the supplied `content` and `metadata`
columns on rows matching the id; a supplied metadata bag replaces the
stored one; no error when no row matches. -/
def updateMessage (db : SupaDB) (mid : String) (u : MessageUpdate) : SupaDB :=
  { db with messages := db.messages.map (fun r =>
      if r.id == mid then
        { r with
          content := u.content.getD r.content
          metadata := (u.metadata.map id).getD r.metadata }
      else r) }

/-- `listConversations`: optionally filter by the bound user id, order by
`updated_at` descending (service-side), join in each conversation's
messages (client-side re-sorted ascending in `mapToConversation`). -/
def listConversations (db : SupaDB) (userId : Option String) :
    List Conversation :=
  let rows := match userId with
    | some uid => db.conversations.filter (fun r => r.user_id == some uid)
    | none => db.conversations
  (sortDescBy ConvRow.updated_at rows).map
    (fun r => mapToConversation r (rowsOf db r.id))

/-- `getConversation`: single-row fetch; a miss is `none`, not an error. -/
def getConversation (db : SupaDB) (cid : String) : Option Conversation :=
  (db.conversations.find? (fun r => r.id == cid)).map
    (fun r => mapToConversation r (rowsOf db cid))

/-- `createConversation`: insert a row with `title || 'New Conversation'`,
the bound user id, both timestamps `now` and zeroed metadata, and return
the mapped entity with an empty message list. -/
def createConversation (db : SupaDB) (userId : Option String) (now : Nat)
    (freshId : String) (title : Option String) :
    Except String (Conversation × SupaDB) :=
  if db.conversations.any (fun r => r.id == freshId) then
    .error "Failed to create conversation: duplicate key value violates unique constraint"
  else
    let row : ConvRow :=
      { id := freshId
        title := some (match title with
          | some t => if t == "" then "New Conversation" else t
          | none => "New Conversation")
        user_id := userId
        created_at := now
        updated_at := now
        metadata := some { totalTokens := some 0, messageCount := some 0,
                           userId := none } }
    .ok ({ id := row.id
           title := row.title
           messages := []
           createdAt := row.created_at
           updatedAt := row.updated_at
           metadata := row.metadata },
         { db with conversations := db.conversations ++ [row] })

/-- The column writes `updateConversation` performs on a matching row:
`updated_at := now` plus any supplied `title`/`metadata`. -/
def applyConvRowUpdate (u : ConversationUpdate) (now : Nat) (r : ConvRow) :
    ConvRow :=
  { r with
    updated_at := now
    title := match u.title with
      | some t => some t
      | none => r.title
    metadata := match u.metadata with
      | some md => some md
      | none => r.metadata }

/-- `updateConversation`: write `updated_at := now` plus any supplied
`title`/`metadata` on rows matching the id; no error when none match. -/
def updateConversation (db : SupaDB) (now : Nat) (cid : String)
    (u : ConversationUpdate) : SupaDB :=
  { db with conversations := db.conversations.map (fun r =>
      if r.id == cid then applyConvRowUpdate u now r else r) }

/-- `deleteConversation`: delete the conversation row; message rows go by
cascade; no error when none match. -/
def deleteConversation (db : SupaDB) (cid : String) : SupaDB :=
  { conversations := db.conversations.filter (fun r => !(r.id == cid))
    messages := db.messages.filter (fun r => !(r.conversation_id == cid)) }

/-- `clearAll`: refuse without a bound user id; otherwise delete every
conversation row owned by that id (messages by cascade). -/
def clearAll (db : SupaDB) (userId : Option String) : Except String SupaDB :=
  match userId with
  | none => .error "Cannot clear all without userId"
  | some uid =>
    let removed := db.conversations.filter (fun r => r.user_id == some uid)
    .ok { conversations :=
            db.conversations.filter (fun r => !(r.user_id == some uid))
          messages := db.messages.filter (fun r =>
            !(removed.any (fun c => c.id == r.conversation_id))) }

end SupabaseChatAdapter

/-- ASCII lower-casing of one character (`toLowerCase()`; the classified
error messages are ASCII). -/
def charToLower (c : Char) : Char :=
  match c with
  | 'A' => 'a' | 'B' => 'b' | 'C' => 'c' | 'D' => 'd' | 'E' => 'e'
  | 'F' => 'f' | 'G' => 'g' | 'H' => 'h' | 'I' => 'i' | 'J' => 'j'
  | 'K' => 'k' | 'L' => 'l' | 'M' => 'm' | 'N' => 'n' | 'O' => 'o'
  | 'P' => 'p' | 'Q' => 'q' | 'R' => 'r' | 'S' => 's' | 'T' => 't'
  | 'U' => 'u' | 'V' => 'v' | 'W' => 'w' | 'X' => 'x' | 'Y' => 'y'
  | 'Z' => 'z' | c => c

/-- `message.toLowerCase()`. -/
def strToLower (s : String) : String := ⟨s.data.map charToLower⟩

/-- Substring occurrence on character lists. -/
def containsSubList (pat : List Char) : List Char → Bool
  | [] => pat.isEmpty
  | c :: rest => pat.isPrefixOf (c :: rest) || containsSubList pat rest

/-- `message.includes(pat)`. -/
def containsSub (s pat : String) : Bool := containsSubList pat.data s.data

/-- `isRetryableError`: classify by substrings of the lowercased message
(network failure, timeout, rate limiting, 5xx). -/
def isRetryableError (msg : String) : Bool :=
  let m := strToLower msg
  containsSub m "network" || containsSub m "fetch" ||
    containsSub m "econnrefused" || containsSub m "enotfound" ||
  containsSub m "timeout" || containsSub m "timed out" ||
  containsSub m "rate limit" || containsSub m "429" || containsSub m "quota" ||
  containsSub m "500" || containsSub m "502" || containsSub m "503" ||
    containsSub m "504"

/-- `RetryOptions` with the source defaults (the predicate is passed
separately). -/
structure RetryOptions where
  maxRetries : Nat := 3
  baseDelay : Nat := 1000
  maxDelay : Nat := 10000
  backoffMultiplier : Nat := 2
deriving DecidableEq, Repr

/-- How a `withRetry` run can fail: the underlying error propagated
unchanged (non-retryable), or the dedicated exhaustion error
(`LLMError` "Failed after N retries") wrapping the last underlying error
(`none` only when `maxRetries = 0`, where no attempt ran). -/
inductive RetryError
  | original (msg : String)
  | exhausted (retries : Nat) (last : Option String)
deriving DecidableEq, Repr

/-- The backoff delay computed after failed attempt index `attempt`:
`min(baseDelay * backoffMultiplier ^ attempt, maxDelay)`. -/
def retryDelay (opts : RetryOptions) (attempt : Nat) : Nat :=
  min (opts.baseDelay * opts.backoffMultiplier ^ attempt) opts.maxDelay

/-- The retry loop of `withRetry`, over a deterministic schedule of attempt
outcomes `fn : attempt index → result`. Returns the overall result, the
number of invocations of `fn`, and the list of waits performed, in order. -/
def withRetryAux {α : Type} (opts : RetryOptions) (sr : String → Bool)
    (fn : Nat → Except String α) :
    Nat → Nat → Except RetryError α × Nat × List Nat
  | _, 0 => (.error (.exhausted opts.maxRetries none), 0, [])
  | attempt, 1 =>
    match fn attempt with
    | .ok a => (.ok a, 1, [])
    | .error e =>
      if sr e then (.error (.exhausted opts.maxRetries (some e)), 1, [])
      else (.error (.original e), 1, [])
  | attempt, n + 2 =>
    match fn attempt with
    | .ok a => (.ok a, 1, [])
    | .error e =>
      if sr e then
        let rest := withRetryAux opts sr fn (attempt + 1) (n + 1)
        (rest.1, rest.2.1 + 1, retryDelay opts attempt :: rest.2.2)
      else (.error (.original e), 1, [])

/-- `withRetry(fn, options)`. -/
def withRetry {α : Type} (opts : RetryOptions) (sr : String → Bool)
    (fn : Nat → Except String α) : Except RetryError α × Nat × List Nat :=
  withRetryAux opts sr fn 0 opts.maxRetries

/-- Circuit-breaker state: `closed`, `open` (named `opened`), `half-open`. -/
inductive BreakerState
  | closed
  | opened
  | halfOpen
deriving DecidableEq, Repr

/-- The `CircuitBreaker` instance fields. -/
structure CircuitBreaker where
  threshold : Nat := 5
  timeout : Nat := 60000
  failures : Nat := 0
  lastFailureTime : Nat := 0
  state : BreakerState := .closed
deriving DecidableEq, Repr

/-- Outcome of the wrapped operation, were it to be invoked. -/
inductive CallOutcome (α : Type)
  | success (a : α)
  | failure (e : String)
deriving DecidableEq, Repr

/-- Result of `CircuitBreaker.execute`: rejected without invoking the
wrapped operation, or the operation's own success/failure propagated. -/
inductive ExecResult (α : Type)
  | rejected
  | ok (a : α)
  | err (e : String)
deriving DecidableEq, Repr

namespace CircuitBreaker

/-- Fresh breaker as constructed. -/
def mk' (threshold timeout : Nat) : CircuitBreaker :=
  { threshold := threshold, timeout := timeout }

/-- `onSuccess`: reset the failure count and close. -/
def onSuccess (cb : CircuitBreaker) : CircuitBreaker :=
  { cb with failures := 0, state := .closed }

/-- `onFailure`: count the failure, record its time, and open once the
count reaches the threshold. -/
def onFailure (cb : CircuitBreaker) (now : Nat) : CircuitBreaker :=
  let f := cb.failures + 1
  { cb with
    failures := f
    lastFailureTime := now
    state := if cb.threshold ≤ f then .opened else cb.state }

/-- The entry gate of `execute`: while `open`, either move to `half-open`
(cooldown elapsed: `now - lastFailureTime > timeout`) or reject without
invoking; otherwise proceed unchanged. -/
def gate (cb : CircuitBreaker) (now : Nat) : Option CircuitBreaker :=
  if cb.state = .opened then
    if cb.timeout < now - cb.lastFailureTime then
      some { cb with state := .halfOpen }
    else none
  else some cb

/-- `execute(fn)` at time `now`, where `r` is the outcome the wrapped
operation would produce if invoked. The `Bool` records whether it was
invoked. -/
def execute {α : Type} (cb : CircuitBreaker) (now : Nat)
    (r : CallOutcome α) : ExecResult α × CircuitBreaker × Bool :=
  match gate cb now with
  | none => (.rejected, cb, false)
  | some cb1 =>
    match r with
    | .success a => (.ok a, onSuccess cb1, true)
    | .failure e => (.err e, onFailure cb1 now, true)

/-- States a breaker can be in after construction and any sequence of
calls (observed between calls). -/
inductive Reachable : CircuitBreaker → Prop
  | init (threshold timeout : Nat) : Reachable (mk' threshold timeout)
  | step {cb : CircuitBreaker} (now : Nat) (r : CallOutcome Unit) :
      Reachable cb → Reachable (execute cb now r).2.1

end CircuitBreaker

/-! Concrete example data used by witnesses and counterexamples. -/

/-- An operation that fails twice with a retryable (network) error, then
succeeds. -/
def exRetryFn : Nat → Except String Nat :=
  fun i => if i < 2 then .error "network down" else .ok 7

/-- The backoff options of the spec's numeric example. -/
def exRetryOpts3000 : RetryOptions :=
  { maxRetries := 4, baseDelay := 1000, maxDelay := 3000,
    backoffMultiplier := 2 }

/-- A breaker with threshold 1 and cooldown 10. -/
def exBreaker : CircuitBreaker := CircuitBreaker.mk' 1 10

/-- `exBreaker` after one failed call at time 0 (state `open`). -/
def exBreakerOpen : CircuitBreaker :=
  (CircuitBreaker.execute exBreaker 0
    (CallOutcome.failure "boom" : CallOutcome Unit)).2.1

/-- The scenario's user message. -/
def exUserMsg : Message :=
  { id := "m1", role := .user, content := "Plan a 3-day trip to Kyoto",
    timestamp := 1 }

/-- The scenario's assistant message with `metadata.tokens = 42`. -/
def exAsstMsg : Message :=
  { id := "m2", role := .assistant, content := "Day 1: Fushimi Inari."
    timestamp := 2, metadata := some { tokens := some 42 } }

/-- A pre-existing conversation used to populate stores. -/
def exConv9 : Conversation := { id := "c9", createdAt := 0, updatedAt := 0 }

/-- Browser environment with an empty store. -/
def exEnv0 : LocalStorageChatAdapter.LocalEnv := { browser := true, stored := [] }

/-- Non-browser environment (server-side rendering) whose underlying store
happens to hold a conversation. -/
def exNoWin : LocalStorageChatAdapter.LocalEnv :=
  { browser := false, stored := [("c9", exConv9)] }

/-- After `createConversation` at time 0 ("Trip Planning", id "c1"). -/
def exEnv1 : LocalStorageChatAdapter.LocalEnv :=
  (LocalStorageChatAdapter.createConversation exEnv0 0 "c1"
    (some "Trip Planning")).2

/-- After saving the user message at time 1. -/
def exEnv2 : LocalStorageChatAdapter.LocalEnv :=
  ((LocalStorageChatAdapter.saveMessage exEnv1 1 "c1" exUserMsg).toOption).getD
    exEnv0

/-- After saving the assistant message at time 2. -/
def exEnv3 : LocalStorageChatAdapter.LocalEnv :=
  ((LocalStorageChatAdapter.saveMessage exEnv2 2 "c1" exAsstMsg).toOption).getD
    exEnv0

/-- Empty remote store. -/
def exDB0 : SupaDB := {}

/-- Remote store after the scenario's `createConversation` (user "alice"). -/
def exDB1 : SupaDB :=
  ((SupabaseChatAdapter.createConversation exDB0 (some "alice") 0 "c1"
    (some "Trip Planning")).toOption.map Prod.snd).getD exDB0

/-- Remote store after saving the user message. -/
def exDB2 : SupaDB :=
  ((SupabaseChatAdapter.saveMessage exDB1 1 "c1" exUserMsg).toOption).getD exDB1

/-- Remote store after saving the assistant message. -/
def exDB3 : SupaDB :=
  ((SupabaseChatAdapter.saveMessage exDB2 2 "c1" exAsstMsg).toOption).getD exDB2

/-- A conversation row owned by "alice". -/
def exRowA : ConvRow :=
  { id := "ca", user_id := some "alice", created_at := 0, updated_at := 0 }

/-- A conversation row owned by "bob". -/
def exRowB : ConvRow :=
  { id := "cb", user_id := some "bob", created_at := 0, updated_at := 1 }

/-- A message row in "alice"'s conversation. -/
def exMsgRowA : MessageRow :=
  { id := "ma", conversation_id := "ca", role := .user, content := "hi",
    created_at := 1 }

/-- A message row in "bob"'s conversation. -/
def exMsgRowB : MessageRow :=
  { id := "mb", conversation_id := "cb", role := .user, content := "yo",
    created_at := 1 }

/-- Remote store holding one conversation of "alice" and one of "bob". -/
def exDBab : SupaDB :=
  { conversations := [exRowA, exRowB], messages := [exMsgRowA, exMsgRowB] }

/-- `exDBab` with "alice"'s data removed. -/
def exDBb : SupaDB :=
  { conversations := [exRowB], messages := [exMsgRowB] }

/-- The conversation left behind by deleting the assistant message from
`exEnv3`: one message, but caches still claiming 42 tokens and 2 messages. -/
def exStaleConv : Conversation :=
  { id := "c1", title := some "Trip Planning", messages := [exUserMsg],
    createdAt := 0, updatedAt := 3,
    metadata := some { totalTokens := some 42, messageCount := some 2,
                       userId := none } }

/-- A partial message update supplying only a metadata bag. -/
def exBoomUpdate : MessageUpdate :=
  { metadata := some { error := some "boom" } }

/-- The assistant message after `exBoomUpdate`: the supplied bag replaced
the previous one, dropping `tokens`. -/
def exBoomedMsg : Message :=
  { id := "m2", role := .assistant, content := "Day 1: Fushimi Inari."
    timestamp := 2, metadata := some { error := some "boom" } }

/-- The conversation entity returned by the remote adapter's
`createConversation` in the scenario. -/
def exConvC1 : Conversation :=
  { id := "c1", title := some "Trip Planning", messages := [],
    createdAt := 0, updatedAt := 0,
    metadata := some { totalTokens := some 0, messageCount := some 0,
                       userId := none } }

/-- The scenario conversation after the user message only (as stored in
`exEnv2`). -/
def exConvM1 : Conversation :=
  { id := "c1", title := some "Trip Planning", messages := [exUserMsg],
    createdAt := 0, updatedAt := 1,
    metadata := some { totalTokens := some 0, messageCount := some 1,
                       userId := none } }

/-- The scenario conversation with both messages (as stored in `exEnv3`). -/
def exConvFull : Conversation :=
  { id := "c1", title := some "Trip Planning",
    messages := [exUserMsg, exAsstMsg], createdAt := 0, updatedAt := 2,
    metadata := some { totalTokens := some 42, messageCount := some 2,
                       userId := none } }

/-- A conversation last touched at time 1. -/
def exConvA : Conversation :=
  { id := "c1", title := some "First", createdAt := 0, updatedAt := 1 }

/-- A conversation last touched at time 2. -/
def exConvB : Conversation :=
  { id := "c2", title := some "Second", createdAt := 0, updatedAt := 2 }

/-- Browser store holding `exConvA` and `exConvB`. -/
def exEnvTwo : LocalStorageChatAdapter.LocalEnv :=
  { browser := true, stored := [("c1", exConvA), ("c2", exConvB)] }

/-- A partial conversation update supplying only a title. -/
def exTitleUpdate : ConversationUpdate := { title := some "Renamed" }

/-- `exConvA` after renaming at time 5. -/
def exConvARenamed : Conversation :=
  { exConvA with title := some "Renamed", updatedAt := 5 }

/-- `exEnvTwo` after renaming `exConvA` at time 5. -/
def exEnvTwoRenamed : LocalStorageChatAdapter.LocalEnv :=
  { browser := true, stored := [("c1", exConvARenamed), ("c2", exConvB)] }

/-! Generic lemmas about the stable sorts and the keyed record. -/

theorem mem_insertDescBy {α : Type} {key : α → Nat} {c a : α} {l : List α} :
    a ∈ insertDescBy key c l ↔ a = c ∨ a ∈ l := by
  induction l with
  | nil => simp [insertDescBy]
  | cons d ds ih =>
    by_cases h : key c < key d
    · simp only [insertDescBy, if_pos h, List.mem_cons, ih]
      tauto
    · simp only [insertDescBy, if_neg h, List.mem_cons]

theorem pairwise_insertDescBy {α : Type} {key : α → Nat} {c : α}
    {l : List α} (h : l.Pairwise (fun a b => key b ≤ key a)) :
    (insertDescBy key c l).Pairwise (fun a b => key b ≤ key a) := by
  induction l with
  | nil => simp [insertDescBy]
  | cons d ds ih =>
    rcases List.pairwise_cons.mp h with ⟨hd, hds⟩
    by_cases hc : key c < key d
    · rw [insertDescBy, if_pos hc]
      refine List.pairwise_cons.mpr ⟨?_, ih hds⟩
      intro a ha
      rcases mem_insertDescBy.mp ha with rfl | ha
      · exact Nat.le_of_lt hc
      · exact hd a ha
    · rw [insertDescBy, if_neg hc]
      refine List.pairwise_cons.mpr ⟨?_, h⟩
      intro a ha
      rcases List.mem_cons.mp ha with rfl | ha
      · exact Nat.le_of_not_lt hc
      · exact le_trans (hd a ha) (Nat.le_of_not_lt hc)

theorem pairwise_sortDescBy {α : Type} (key : α → Nat) (l : List α) :
    (sortDescBy key l).Pairwise (fun a b => key b ≤ key a) := by
  induction l with
  | nil => simp [sortDescBy]
  | cons c cs ih => exact pairwise_insertDescBy ih

theorem mem_sortDescBy {α : Type} {key : α → Nat} {a : α} {l : List α} :
    a ∈ sortDescBy key l ↔ a ∈ l := by
  induction l with
  | nil => simp [sortDescBy]
  | cons c cs ih => simp [sortDescBy, mem_insertDescBy, ih]

theorem head_sortDescBy {α : Type} {key : α → Nat} {c : α} {l : List α}
    (hc : c ∈ l) (hmax : ∀ d ∈ l, d ≠ c → key d < key c) :
    (sortDescBy key l).head? = some c := by
  induction l with
  | nil => cases hc
  | cons x xs ih =>
    rcases List.mem_cons.mp hc with rfl | hcx
    · rw [sortDescBy]
      cases hs : sortDescBy key xs with
      | nil => simp [insertDescBy]
      | cons y ys =>
        have hy : y ∈ xs := mem_sortDescBy.mp (hs ▸ List.mem_cons_self y ys)
        have hnlt : ¬ key c < key y := by
          by_cases hyc : y = c
          · subst hyc; exact lt_irrefl _
          · exact Nat.not_lt.mpr
              (Nat.le_of_lt (hmax y (List.mem_cons_of_mem _ hy) hyc))
        rw [insertDescBy, if_neg hnlt]
        rfl
    · have hmax' : ∀ d ∈ xs, d ≠ c → key d < key c :=
        fun d hd => hmax d (List.mem_cons_of_mem _ hd)
      have ihh := ih hcx hmax'
      rw [sortDescBy]
      cases hs : sortDescBy key xs with
      | nil => rw [hs] at ihh; cases ihh
      | cons y ys =>
        rw [hs] at ihh
        have hy : y = c := by simpa using ihh
        subst hy
        by_cases hx : key x < key y
        · rw [insertDescBy, if_pos hx]; rfl
        · by_cases hxc : x = y
          · subst hxc; rw [insertDescBy, if_neg hx]; rfl
          · exact absurd (hmax x (List.mem_cons_self x xs) hxc) hx

theorem insertAscBy_append_last {α : Type} {key : α → Nat} {x c : α}
    (h : ¬ key c < key x) (s : List α) :
    insertAscBy key x (s ++ [c]) = insertAscBy key x s ++ [c] := by
  induction s with
  | nil => simp [insertAscBy, h]
  | cons d ds ih =>
    by_cases hd : key d < key x
    · simp [insertAscBy, hd, ih]
    · simp [insertAscBy, hd]

theorem sortAscBy_append_last {α : Type} {key : α → Nat} {c : α}
    {l : List α} (h : ∀ x ∈ l, key x ≤ key c) :
    sortAscBy key (l ++ [c]) = sortAscBy key l ++ [c] := by
  induction l with
  | nil => simp [sortAscBy, insertAscBy]
  | cons x xs ih =>
    have hx : ¬ key c < key x := Nat.not_lt.mpr (h x (List.mem_cons_self x xs))
    rw [List.cons_append, sortAscBy,
      ih (fun y hy => h y (List.mem_cons_of_mem _ hy)),
      insertAscBy_append_last hx, sortAscBy]

theorem lookupConv_updateConv_self (convs : ConvRecord) (cid : String)
    (f : Conversation → Conversation) :
    lookupConv (updateConv convs cid f) cid = (lookupConv convs cid).map f := by
  induction convs with
  | nil => rfl
  | cons p ps ih =>
    by_cases h : (p.1 == cid) = true
    · simp [lookupConv, updateConv, List.find?, h]
    · simp only [updateConv, List.map_cons, if_neg h]
      simp only [lookupConv, List.find?, h]
      exact ih

theorem lookupConv_append_of_none {l1 : ConvRecord} (l2 : ConvRecord)
    {cid : String} (h : lookupConv l1 cid = none) :
    lookupConv (l1 ++ l2) cid = lookupConv l2 cid := by
  induction l1 with
  | nil => rfl
  | cons p ps ih =>
    by_cases hp : (p.1 == cid) = true
    · simp [lookupConv, List.find?, hp] at h
    · simp only [lookupConv, List.find?, hp, List.cons_append] at h ⊢
      exact ih h

theorem any_key_eq_false_of_lookup_none {convs : ConvRecord} {cid : String}
    (h : lookupConv convs cid = none) :
    convs.any (fun p => p.1 == cid) = false := by
  induction convs with
  | nil => rfl
  | cons p ps ih =>
    by_cases hp : (p.1 == cid) = true
    · simp [lookupConv, List.find?, hp] at h
    · simp only [lookupConv, List.find?, hp] at h
      simp [List.any_cons, hp, ih h]

theorem sumTokens_append_single (l : List Message) (m : Message) :
    sumTokens (l ++ [m]) =
      sumTokens l + ((m.metadata.bind MsgMetadata.tokens).getD 0) := by
  simp [sumTokens]

/-! Lemmas about the retry loop. -/

theorem withRetryAux_delays_shape {α : Type} (opts : RetryOptions)
    (sr : String → Bool) (fn : Nat → Except String α) :
    ∀ (remaining attempt : Nat),
      (withRetryAux opts sr fn attempt remaining).2.2 =
        (List.range' attempt
            (withRetryAux opts sr fn attempt remaining).2.2.length).map
          (retryDelay opts) := by
  intro remaining
  induction remaining with
  | zero => intro attempt; simp [withRetryAux]
  | succ n ih =>
    intro attempt
    cases n with
    | zero =>
      cases hf : fn attempt with
      | ok a => simp [withRetryAux, hf]
      | error e =>
        by_cases hs : sr e = true
        · simp [withRetryAux, hf, hs]
        · simp [withRetryAux, hf, hs]
    | succ k =>
      cases hf : fn attempt with
      | ok a => simp [withRetryAux, hf]
      | error e =>
        by_cases hs : sr e = true
        · have := ih (attempt + 1)
          simp only [withRetryAux, hf, hs, if_pos]
          simp only [List.length_cons, List.range'_succ, List.map_cons,
            List.cons.injEq, true_and]
          exact this
        · simp [withRetryAux, hf, hs]

theorem withRetryAux_counts {α : Type} (opts : RetryOptions)
    (sr : String → Bool) (fn : Nat → Except String α) :
    ∀ (remaining attempt : Nat),
      (withRetryAux opts sr fn attempt remaining).2.1 ≤ remaining ∧
      (1 ≤ remaining → 1 ≤ (withRetryAux opts sr fn attempt remaining).2.1) ∧
      (withRetryAux opts sr fn attempt remaining).2.2.length ≤
        (withRetryAux opts sr fn attempt remaining).2.1 - 1 := by
  intro remaining
  induction remaining with
  | zero => intro attempt; simp [withRetryAux]
  | succ n ih =>
    intro attempt
    cases n with
    | zero =>
      cases hf : fn attempt with
      | ok a => simp [withRetryAux, hf]
      | error e =>
        by_cases hs : sr e = true
        · simp [withRetryAux, hf, hs]
        · simp [withRetryAux, hf, hs]
    | succ k =>
      cases hf : fn attempt with
      | ok a => simp [withRetryAux, hf]
      | error e =>
        by_cases hs : sr e = true
        · have ihh := ih (attempt + 1)
          simp only [withRetryAux, hf, hs, if_pos, List.length_cons]
          refine ⟨by omega, fun _ => by omega, ?_⟩
          have h1 := ihh.2.1 (by omega)
          have h2 := ihh.2.2
          omega
        · simp [withRetryAux, hf, hs]

theorem withRetryAux_exhausts {α : Type} (opts : RetryOptions)
    (sr : String → Bool) (fn : Nat → Except String α) (em : Nat → String) :
    ∀ (remaining attempt : Nat), 1 ≤ remaining →
      (∀ i, attempt ≤ i → i < attempt + remaining →
          fn i = .error (em i) ∧ sr (em i) = true) →
      withRetryAux opts sr fn attempt remaining =
        (.error (.exhausted opts.maxRetries (some (em (attempt + remaining - 1)))),
          remaining,
          (List.range' attempt (remaining - 1)).map (retryDelay opts)) := by
  intro remaining
  induction remaining with
  | zero => intro attempt h; omega
  | succ n ih =>
    intro attempt _ hall
    cases n with
    | zero =>
      have h0 := hall attempt (le_refl _) (by omega)
      simp [withRetryAux, h0.1, h0.2]
    | succ k =>
      have h0 := hall attempt (le_refl _) (by omega)
      have ihh := ih (attempt + 1) (by omega)
        (fun i hi1 hi2 => hall i (by omega) (by omega))
      simp only [withRetryAux, h0.1, h0.2, if_pos, ihh]
      have he : attempt + 1 + (k + 1) - 1 = attempt + (k + 1 + 1) - 1 := by omega
      have hr : List.range' attempt (k + 1 + 1 - 1) =
          attempt :: List.range' (attempt + 1) (k + 1 - 1) := by
        have : k + 1 + 1 - 1 = (k + 1 - 1) + 1 := by omega
        rw [this, List.range'_succ]
      rw [he, hr]
      simp

/-! Lemmas about the circuit breaker. -/

/-- In any state reachable by construction and calls, an `open` breaker has
accumulated at least `threshold` failures. -/
theorem breaker_opened_invariant :
    ∀ {cb : CircuitBreaker}, CircuitBreaker.Reachable cb →
      cb.state = .opened → cb.threshold ≤ cb.failures := by
  intro cb h
  induction h with
  | init t tmo => intro ho; simp [CircuitBreaker.mk'] at ho
  | @step cb now r _ ih =>
    intro ho
    cases hg : CircuitBreaker.gate cb now with
    | none =>
      simp only [CircuitBreaker.execute, hg] at ho ⊢
      exact ih ho
    | some cb1 =>
      have hcb1 : cb1.state ≠ .opened ∧ cb1.threshold = cb.threshold ∧
          cb1.failures = cb.failures := by
        unfold CircuitBreaker.gate at hg
        by_cases hs : cb.state = .opened
        · rw [if_pos hs] at hg
          by_cases ht : cb.timeout < now - cb.lastFailureTime
          · rw [if_pos ht] at hg
            cases hg
            exact ⟨by simp, rfl, rfl⟩
          · rw [if_neg ht] at hg; cases hg
        · rw [if_neg hs] at hg
          cases hg
          exact ⟨hs, rfl, rfl⟩
      cases r with
      | success a =>
        simp [CircuitBreaker.execute, hg, CircuitBreaker.onSuccess] at ho
      | failure e =>
        simp only [CircuitBreaker.execute, hg, CircuitBreaker.onFailure] at ho ⊢
        by_cases hth : cb1.threshold ≤ cb1.failures + 1
        · exact hth
        · rw [if_neg hth] at ho
          exact absurd ho hcb1.1

/-- C4: the circuit breaker follows exactly the specified transitions:
(1) a failure while `closed` counts, and the breaker opens exactly when the
consecutive-failure count reaches the threshold; (2) a call while `open`
with `now - lastFailureTime > timeout` moves the breaker to `half-open` at
the gate; (3) on a successful probe from `half-open` the breaker closes
with the failure count reset to zero (and the wrapped operation was
invoked); (4) on a failed probe after the cooldown, a reachable open
breaker re-opens (half-open to open); (5) a call while `open` before the
cooldown elapses is rejected immediately, with the wrapped operation not
invoked and the state unchanged. -/
theorem C4_circuit_breaker_transitions {α : Type} :
    (∀ (cb : CircuitBreaker) (now : Nat) (e : String),
      cb.state = .closed →
        CircuitBreaker.execute cb now (CallOutcome.failure e : CallOutcome α) =
          (.err e, CircuitBreaker.onFailure cb now, true) ∧
        (CircuitBreaker.onFailure cb now).failures = cb.failures + 1 ∧
        (CircuitBreaker.onFailure cb now).state =
          (if cb.threshold ≤ cb.failures + 1 then .opened else .closed)) ∧
    (∀ (cb : CircuitBreaker) (now : Nat),
      cb.state = .opened → cb.timeout < now - cb.lastFailureTime →
        CircuitBreaker.gate cb now = some { cb with state := .halfOpen }) ∧
    (∀ (cb : CircuitBreaker) (now : Nat) (a : α),
      cb.state = .halfOpen →
        CircuitBreaker.execute cb now (CallOutcome.success a) =
          (.ok a, { cb with failures := 0, state := .closed }, true)) ∧
    (∀ (cb : CircuitBreaker) (now : Nat) (e : String),
      CircuitBreaker.Reachable cb → cb.state = .opened →
      cb.timeout < now - cb.lastFailureTime →
        ((CircuitBreaker.execute cb now
            (CallOutcome.failure e : CallOutcome α)).2.1).state = .opened ∧
        (CircuitBreaker.execute cb now
            (CallOutcome.failure e : CallOutcome α)).2.2 = true) ∧
    (∀ (cb : CircuitBreaker) (now : Nat) (r : CallOutcome α),
      cb.state = .opened → ¬ (cb.timeout < now - cb.lastFailureTime) →
        CircuitBreaker.execute cb now r = (.rejected, cb, false)) := by
  refine ⟨?_, ?_, ?_, ?_, ?_⟩
  · intro cb now e h
    refine ⟨?_, rfl, ?_⟩
    · simp [CircuitBreaker.execute, CircuitBreaker.gate, h]
    · simp only [CircuitBreaker.onFailure, h]
  · intro cb now h ht
    simp [CircuitBreaker.gate, h, ht]
  · intro cb now a h
    have hg : CircuitBreaker.gate cb now = some cb := by
      simp [CircuitBreaker.gate, h]
    simp [CircuitBreaker.execute, hg, CircuitBreaker.onSuccess]
  · intro cb now e hr ho ht
    have hth : cb.threshold ≤ cb.failures := breaker_opened_invariant hr ho
    have hg : CircuitBreaker.gate cb now = some { cb with state := .halfOpen } := by
      simp [CircuitBreaker.gate, ho, ht]
    constructor
    · simp only [CircuitBreaker.execute, hg, CircuitBreaker.onFailure]
      rw [if_pos (le_trans hth (Nat.le_succ _))]
    · simp [CircuitBreaker.execute, hg]
  · intro cb now r ho ht
    have hg : CircuitBreaker.gate cb now = none := by
      simp [CircuitBreaker.gate, ho, ht]
    simp [CircuitBreaker.execute, hg]

/-- Witness for C4 at a concrete breaker (threshold 1, cooldown 10): after a
failure at time 0 the breaker is open; a call at time 5 is rejected without
invocation; a failed call at time 11 goes through the half-open probe and
re-opens; a successful call at time 11 closes it with failures 0. -/
theorem C4_circuit_breaker_transitions_witness :
    exBreaker.state = .closed ∧
    CircuitBreaker.execute exBreaker 0
        (CallOutcome.failure "boom" : CallOutcome Unit) =
      (.err "boom", CircuitBreaker.onFailure exBreaker 0, true) ∧
    exBreakerOpen.state = .opened ∧
    CircuitBreaker.Reachable exBreakerOpen ∧
    CircuitBreaker.execute exBreakerOpen 5
        (CallOutcome.failure "boom2" : CallOutcome Unit) =
      (.rejected, exBreakerOpen, false) ∧
    ((CircuitBreaker.execute exBreakerOpen 11
        (CallOutcome.failure "boom3" : CallOutcome Unit)).2.1).state = .opened ∧
    CircuitBreaker.execute exBreakerOpen 11
        (CallOutcome.success () : CallOutcome Unit) =
      (.ok (), { exBreakerOpen with failures := 0, state := .closed }, true) := by
  have hreach : CircuitBreaker.Reachable exBreakerOpen :=
    CircuitBreaker.Reachable.step 0 (CallOutcome.failure "boom")
      (CircuitBreaker.Reachable.init 1 10)
  refine ⟨by decide,
    ((@C4_circuit_breaker_transitions Unit).1 exBreaker 0 "boom"
      (by decide)).1,
    by decide, hreach,
    (@C4_circuit_breaker_transitions Unit).2.2.2.2 exBreakerOpen 5
      (CallOutcome.failure "boom2") (by decide) (by decide),
    ((@C4_circuit_breaker_transitions Unit).2.2.2.1 exBreakerOpen 11
      "boom3" hreach (by decide) (by decide)).1,
    ?_⟩
  have hho : ({ exBreakerOpen with state := .halfOpen } :
      CircuitBreaker).state = .halfOpen := rfl
  have := (@C4_circuit_breaker_transitions Unit).2.2.1
    { exBreakerOpen with state := .halfOpen } 11 () hho
  decide

/-- C5: `withRetry` invokes the operation exactly 3 times and returns the
success when the first two attempts fail retryably and the third succeeds
(with `maxRetries = 3`); it invokes exactly once and propagates the error
unchanged, with no wait, when the predicate rejects the error; and when
every one of the `maxRetries` attempts fails retryably it returns the
dedicated exhaustion error wrapping the last underlying error. -/
theorem C5_withRetry_behavior {α : Type} :
    (∀ (opts : RetryOptions) (sr : String → Bool)
        (fn : Nat → Except String α) (e0 e1 : String) (a : α),
      opts.maxRetries = 3 →
      fn 0 = .error e0 → sr e0 = true →
      fn 1 = .error e1 → sr e1 = true →
      fn 2 = .ok a →
      withRetry opts sr fn =
        (.ok a, 3, [retryDelay opts 0, retryDelay opts 1])) ∧
    (∀ (opts : RetryOptions) (sr : String → Bool)
        (fn : Nat → Except String α) (e : String),
      1 ≤ opts.maxRetries → fn 0 = .error e → sr e = false →
      withRetry opts sr fn = (.error (.original e), 1, [])) ∧
    (∀ (opts : RetryOptions) (sr : String → Bool)
        (fn : Nat → Except String α) (em : Nat → String),
      1 ≤ opts.maxRetries →
      (∀ i, i < opts.maxRetries → fn i = .error (em i) ∧ sr (em i) = true) →
      (withRetry opts sr fn).1 =
          .error (.exhausted opts.maxRetries
            (some (em (opts.maxRetries - 1)))) ∧
        (withRetry opts sr fn).2.1 = opts.maxRetries) := by
  refine ⟨?_, ?_, ?_⟩
  · intro opts sr fn e0 e1 a h3 h0 hs0 h1 hs1 h2
    rw [withRetry, h3]
    show withRetryAux opts sr fn 0 (1 + 2) = _
    rw [withRetryAux, h0]
    simp only [hs0, if_true]
    rw [withRetryAux, h1]
    simp only [hs1, if_true]
    rw [withRetryAux, h2]
  · intro opts sr fn e h1 h0 hs
    rw [withRetry]
    rcases hm : opts.maxRetries with _ | n
    · omega
    · cases n with
      | zero =>
        rw [withRetryAux, h0]
        simp [hs]
      | succ k =>
        show withRetryAux opts sr fn 0 (k + 2) = _
        rw [withRetryAux, h0]
        simp [hs]
  · intro opts sr fn em h1 hall
    have hx := withRetryAux_exhausts opts sr fn em opts.maxRetries 0 h1
      (fun i hi1 hi2 => hall i (by omega))
    rw [withRetry, hx]
    exact ⟨by simp, rfl⟩

/-- Witness for C5: `exRetryFn` fails twice with "network down" (retryable)
then returns 7; `withRetry` with the default options (maxRetries 3) returns
the success after exactly 3 invocations. A constant non-retryable failure
"bad request" is invoked once and propagated unchanged. -/
theorem C5_withRetry_behavior_witness :
    ({} : RetryOptions).maxRetries = 3 ∧
    exRetryFn 0 = .error "network down" ∧
    isRetryableError "network down" = true ∧
    exRetryFn 2 = .ok 7 ∧
    withRetry {} isRetryableError exRetryFn =
      (.ok 7, 3, [retryDelay {} 0, retryDelay {} 1]) ∧
    isRetryableError "bad request" = false ∧
    withRetry {} isRetryableError (fun _ => (.error "bad request" : Except String Nat)) =
      (.error (.original "bad request"), 1, []) := by
  refine ⟨rfl, rfl, by decide, rfl, ?_, by decide, ?_⟩
  · exact C5_withRetry_behavior.1 {} isRetryableError exRetryFn
      "network down" "network down" 7 rfl rfl (by decide) rfl (by decide) rfl
  · exact C5_withRetry_behavior.2.1 {} isRetryableError
      (fun _ => (.error "bad request" : Except String Nat)) "bad request"
      (by decide) rfl (by decide)

/-- C6: every wait performed by `withRetry` after failed attempt index `i`
equals `min(baseDelay * backoffMultiplier ^ i, maxDelay)` — the delays list
of any run is exactly `retryDelay` mapped over the attempt indices — with
`baseDelay=1000, backoffMultiplier=2, maxDelay=3000` the wait before
attempt index 3 is `min(1000 * 2 ^ 2, 3000) = 3000`, not 4000 — and no
wait occurs after the final attempt (strictly fewer waits than
invocations, within the attempt budget). -/
theorem C6_backoff_bound {α : Type} :
    (∀ (opts : RetryOptions) (sr : String → Bool)
        (fn : Nat → Except String α),
      (withRetry opts sr fn).2.2 =
        (List.range (withRetry opts sr fn).2.2.length).map (retryDelay opts)) ∧
    (∀ (opts : RetryOptions) (i : Nat),
      retryDelay opts i =
        min (opts.baseDelay * opts.backoffMultiplier ^ i) opts.maxDelay) ∧
    retryDelay exRetryOpts3000 2 = 3000 ∧
    (1000 * 2 ^ 2 : Nat) = 4000 ∧
    (withRetry exRetryOpts3000 isRetryableError
        (fun _ => (.error "network down" : Except String Nat))).2.2 =
      [1000, 2000, 3000] ∧
    (∀ (opts : RetryOptions) (sr : String → Bool)
        (fn : Nat → Except String α),
      (withRetry opts sr fn).2.1 ≤ opts.maxRetries ∧
      (withRetry opts sr fn).2.2.length ≤ (withRetry opts sr fn).2.1 - 1) := by
  refine ⟨?_, fun opts i => rfl, by decide, by decide, by decide, ?_⟩
  · intro opts sr fn
    have := withRetryAux_delays_shape opts sr fn opts.maxRetries 0
    rw [withRetry, List.range_eq_range']
    exact this
  · intro opts sr fn
    have := withRetryAux_counts opts sr fn opts.maxRetries 0
    exact ⟨this.1, this.2.2⟩

/-! Lemmas about the local adapter's environment. -/

theorem getAll_of_browser {env : LocalStorageChatAdapter.LocalEnv}
    (hb : env.browser = true) :
    LocalStorageChatAdapter.getAll env = env.stored := by
  simp [LocalStorageChatAdapter.getAll, hb]

theorem getAll_saveAll {env : LocalStorageChatAdapter.LocalEnv}
    (hb : env.browser = true) (convs : ConvRecord) :
    LocalStorageChatAdapter.getAll (LocalStorageChatAdapter.saveAll env convs) =
      convs := by
  simp [LocalStorageChatAdapter.getAll, LocalStorageChatAdapter.saveAll, hb]

/-- C10: in a non-browser execution context every read of the local adapter
sees the empty document and every completed mutation leaves the underlying
store untouched: `createConversation` returns a conversation yet a
following `getConversation` on its id is absent; `saveMessage` to any id
fails with the not-found error; `clearAll` completes and changes nothing;
and the message/conversation update and delete operations only ever report
not-found. -/
theorem C10_non_browser_reads_empty_writes_nothing
    (env : LocalStorageChatAdapter.LocalEnv) (h : env.browser = false) :
    (∀ now freshId title,
      (LocalStorageChatAdapter.createConversation env now freshId title).2 =
        env ∧
      LocalStorageChatAdapter.getConversation
        (LocalStorageChatAdapter.createConversation env now freshId title).2
        (LocalStorageChatAdapter.createConversation env now freshId
          title).1.id = none) ∧
    (∀ now cid m, LocalStorageChatAdapter.saveMessage env now cid m =
      .error ("Conversation " ++ cid ++ " not found")) ∧
    LocalStorageChatAdapter.clearAll env = env ∧
    (∀ cid, LocalStorageChatAdapter.getConversation env cid = none ∧
      LocalStorageChatAdapter.getMessages env cid = []) ∧
    LocalStorageChatAdapter.listConversations env = [] ∧
    (∀ now mid, LocalStorageChatAdapter.deleteMessage env now mid =
      .error ("Message " ++ mid ++ " not found")) ∧
    (∀ now mid u, LocalStorageChatAdapter.updateMessage env now mid u =
      .error ("Message " ++ mid ++ " not found")) ∧
    (∀ now cid u, LocalStorageChatAdapter.updateConversation env now cid u =
      .error ("Conversation " ++ cid ++ " not found")) ∧
    (∀ cid, LocalStorageChatAdapter.deleteConversation env cid =
      .error ("Conversation " ++ cid ++ " not found")) := by
  have hga : LocalStorageChatAdapter.getAll env = [] := by
    simp [LocalStorageChatAdapter.getAll, h]
  have hsa : ∀ convs, LocalStorageChatAdapter.saveAll env convs = env := by
    intro convs
    simp [LocalStorageChatAdapter.saveAll, h]
  refine ⟨?_, ?_, ?_, ?_, ?_, ?_, ?_, ?_, ?_⟩
  · intro now freshId title
    constructor
    · simp [LocalStorageChatAdapter.createConversation, hsa]
    · simp [LocalStorageChatAdapter.createConversation, hsa,
        LocalStorageChatAdapter.getConversation, hga, lookupConv]
  · intro now cid m
    simp [LocalStorageChatAdapter.saveMessage, hga, lookupConv]
  · simp [LocalStorageChatAdapter.clearAll, h]
  · intro cid
    constructor
    · simp [LocalStorageChatAdapter.getConversation, hga, lookupConv]
    · simp [LocalStorageChatAdapter.getMessages, hga, lookupConv]
  · simp [LocalStorageChatAdapter.listConversations, hga, convValues,
      sortDescBy]
  · intro now mid
    simp [LocalStorageChatAdapter.deleteMessage, hga,
      LocalStorageChatAdapter.deleteMessageScan]
  · intro now mid u
    simp [LocalStorageChatAdapter.updateMessage, hga,
      LocalStorageChatAdapter.updateMessageScan]
  · intro now cid u
    simp [LocalStorageChatAdapter.updateConversation, hga, lookupConv]
  · intro cid
    simp [LocalStorageChatAdapter.deleteConversation, hga, lookupConv]

/-- Witness for C10 at a non-browser environment whose underlying store
holds a conversation "c9": the store stays as it is, yet neither "c9" nor
a freshly created conversation is readable, and `saveMessage` to "c9"
fails not-found. -/
theorem C10_non_browser_witness :
    exNoWin.browser = false ∧
    (LocalStorageChatAdapter.createConversation exNoWin 5 "cNew" none).2 =
      exNoWin ∧
    LocalStorageChatAdapter.getConversation
      (LocalStorageChatAdapter.createConversation exNoWin 5 "cNew" none).2
      (LocalStorageChatAdapter.createConversation exNoWin 5 "cNew"
        none).1.id = none ∧
    LocalStorageChatAdapter.saveMessage exNoWin 6 "c9" exUserMsg =
      .error "Conversation c9 not found" ∧
    LocalStorageChatAdapter.getConversation exNoWin "c9" = none ∧
    LocalStorageChatAdapter.clearAll exNoWin = exNoWin := by
  have hthm := C10_non_browser_reads_empty_writes_nothing exNoWin (by decide)
  exact ⟨by decide, (hthm.1 5 "cNew" none).1, (hthm.1 5 "cNew" none).2,
    hthm.2.1 6 "c9" exUserMsg, (hthm.2.2.2.1 "c9").1, hthm.2.2.1⟩

/-- C7: on both adapters, `createConversation` with a fresh id returns a
conversation with that id, an empty message sequence, `createdAt` equal to
`updatedAt` (both `now`), and zeroed metadata caches, and a following
`getConversation` on that id returns exactly that conversation (for the
remote adapter, given referential integrity of the store). -/
theorem C7_createConversation_fresh :
    (∀ (env : LocalStorageChatAdapter.LocalEnv) (now : Nat)
        (freshId : String) (title : Option String),
      env.browser = true →
      lookupConv env.stored freshId = none →
      (LocalStorageChatAdapter.createConversation env now freshId
          title).1.id = freshId ∧
      (LocalStorageChatAdapter.createConversation env now freshId
          title).1.messages = [] ∧
      (LocalStorageChatAdapter.createConversation env now freshId
          title).1.createdAt = now ∧
      (LocalStorageChatAdapter.createConversation env now freshId
          title).1.updatedAt = now ∧
      (LocalStorageChatAdapter.createConversation env now freshId
          title).1.metadata =
        some { totalTokens := some 0, messageCount := some 0,
               userId := none } ∧
      LocalStorageChatAdapter.getConversation
          (LocalStorageChatAdapter.createConversation env now freshId
            title).2 freshId =
        some (LocalStorageChatAdapter.createConversation env now freshId
          title).1) ∧
    (∀ (db : SupaDB) (userId : Option String) (now : Nat) (freshId : String)
        (title : Option String) (c : Conversation) (db' : SupaDB),
      db.WF →
      (∀ r ∈ db.conversations, r.id ≠ freshId) →
      SupabaseChatAdapter.createConversation db userId now freshId title =
        .ok (c, db') →
      c.id = freshId ∧ c.messages = [] ∧ c.createdAt = now ∧
      c.updatedAt = now ∧
      c.metadata =
        some { totalTokens := some 0, messageCount := some 0,
               userId := none } ∧
      SupabaseChatAdapter.getConversation db' freshId = some c) := by
  constructor
  · intro env now freshId title hb hfresh
    have hga : LocalStorageChatAdapter.getAll env = env.stored :=
      getAll_of_browser hb
    have hany : env.stored.any (fun p => p.1 == freshId) = false :=
      any_key_eq_false_of_lookup_none hfresh
    refine ⟨rfl, rfl, rfl, rfl, rfl, ?_⟩
    unfold LocalStorageChatAdapter.createConversation
    simp only [LocalStorageChatAdapter.getConversation]
    rw [getAll_saveAll hb, hga, setConv, hany]
    simp only [Bool.false_eq_true, if_false]
    rw [lookupConv_append_of_none _ hfresh]
    simp [lookupConv]
  · intro db userId now freshId title c db' hwf hfresh hok
    have hany : db.conversations.any (fun r => r.id == freshId) = false := by
      simp only [List.any_eq_false]
      intro r hr
      simpa using hfresh r hr
    have hnomsg : ∀ r ∈ db.messages, ¬ (r.conversation_id == freshId) = true := by
      intro r hr
      obtain ⟨cv, hcv, hcid⟩ := hwf r hr
      simp only [beq_iff_eq]
      intro heq
      exact hfresh cv hcv (hcid.trans heq)
    have h1 : db.conversations.find? (fun r => r.id == freshId) = none := by
      rw [List.find?_eq_none]
      intro r hr
      simpa using hfresh r hr
    unfold SupabaseChatAdapter.createConversation at hok
    rw [hany] at hok
    simp only [Bool.false_eq_true, if_false, Except.ok.injEq,
      Prod.mk.injEq] at hok
    obtain ⟨hc, hdb⟩ := hok
    subst hc
    subst hdb
    refine ⟨rfl, rfl, rfl, rfl, rfl, ?_⟩
    unfold SupabaseChatAdapter.getConversation
    simp only [List.find?_append, h1, Option.none_or, List.find?_cons,
      beq_self_eq_true]
    have h2 : List.filter (fun r => r.conversation_id == freshId)
        db.messages = [] :=
      List.filter_eq_nil_iff.mpr hnomsg
    simp [SupabaseChatAdapter.rowsOf, SupabaseChatAdapter.mapToConversation,
      h2, sortAscBy]

/-- Witness for C7: creating "Trip Planning" in the empty local store and
the empty remote store; both adapters return the zeroed conversation and
read it back. -/
theorem C7_createConversation_fresh_witness :
    exEnv0.browser = true ∧
    lookupConv exEnv0.stored "c1" = none ∧
    (LocalStorageChatAdapter.createConversation exEnv0 0 "c1"
        (some "Trip Planning")).1.messages = [] ∧
    LocalStorageChatAdapter.getConversation exEnv1 "c1" =
      some (LocalStorageChatAdapter.createConversation exEnv0 0 "c1"
        (some "Trip Planning")).1 ∧
    exDB0.WF ∧
    SupabaseChatAdapter.getConversation exDB1 "c1" = some exConvC1 := by
  have hwf : exDB0.WF := fun m hm => absurd hm (List.not_mem_nil m)
  have h1 := C7_createConversation_fresh.1 exEnv0 0 "c1"
    (some "Trip Planning") (by decide) (by decide)
  have h2 := C7_createConversation_fresh.2 exDB0 (some "alice") 0 "c1"
    (some "Trip Planning") exConvC1 exDB1 hwf (by decide) (by rfl)
  exact ⟨by decide, by decide, h1.2.1, h1.2.2.2.2.2, hwf, h2.2.2.2.2.2⟩

/-- C9: the remote adapter's `clearAll` fails with the configuration error
(and, the model returning no new store, changes nothing) when no user
identity is bound; with a bound identity it keeps exactly the conversation
rows not owned by that identity, i.e. removes exactly the owned ones; the
local adapter's `clearAll` empties the store with no identity required. -/
theorem C9_clearAll_scoping :
    (∀ db : SupaDB,
      SupabaseChatAdapter.clearAll db none =
        .error "Cannot clear all without userId") ∧
    (∀ (db : SupaDB) (uid : String) (db' : SupaDB),
      SupabaseChatAdapter.clearAll db (some uid) = .ok db' →
      ∀ r : ConvRow,
        (r ∈ db'.conversations ↔
          r ∈ db.conversations ∧ r.user_id ≠ some uid)) ∧
    (∀ env : LocalStorageChatAdapter.LocalEnv, env.browser = true →
      (LocalStorageChatAdapter.clearAll env).stored = [] ∧
      LocalStorageChatAdapter.listConversations
        (LocalStorageChatAdapter.clearAll env) = []) := by
  refine ⟨fun db => rfl, ?_, ?_⟩
  · intro db uid db' h r
    unfold SupabaseChatAdapter.clearAll at h
    simp only [Except.ok.injEq] at h
    subst h
    simp only [List.mem_filter]
    constructor
    · rintro ⟨h1, h2⟩
      refine ⟨h1, ?_⟩
      simpa using h2
    · rintro ⟨h1, h2⟩
      refine ⟨h1, ?_⟩
      simpa using h2
  · intro env hb
    refine ⟨by simp [LocalStorageChatAdapter.clearAll, hb], ?_⟩
    simp [LocalStorageChatAdapter.listConversations,
      LocalStorageChatAdapter.clearAll, LocalStorageChatAdapter.getAll, hb,
      convValues, sortDescBy]

/-- Witness for C9: on a store holding one conversation of "alice" and one
of "bob", `clearAll` bound to "alice" removes exactly "alice"'s row;
unscoped `clearAll` errors; the local adapter clears everything. -/
theorem C9_clearAll_scoping_witness :
    SupabaseChatAdapter.clearAll exDBab none =
      .error "Cannot clear all without userId" ∧
    SupabaseChatAdapter.clearAll exDBab (some "alice") = .ok exDBb ∧
    (exRowA ∈ exDBb.conversations ↔
      exRowA ∈ exDBab.conversations ∧ exRowA.user_id ≠ some "alice") ∧
    (exRowB ∈ exDBb.conversations ↔
      exRowB ∈ exDBab.conversations ∧ exRowB.user_id ≠ some "alice") ∧
    exEnv1.browser = true ∧
    (LocalStorageChatAdapter.clearAll exEnv1).stored = [] := by
  exact ⟨C9_clearAll_scoping.1 exDBab, by rfl,
    C9_clearAll_scoping.2.1 exDBab "alice" exDBb (by rfl) exRowA,
    C9_clearAll_scoping.2.1 exDBab "alice" exDBb (by rfl) exRowB,
    by decide,
    (C9_clearAll_scoping.2.2 exEnv1 (by decide)).1⟩

/-- C3: on both adapters, `saveMessage` to a missing conversation fails
(local: the "not found" error; remote: the insert violates the foreign key
and the wrapped error is raised, so no conversation is ever created
implicitly — on error the model returns no new store); to an existing
conversation it appends the message so that `getMessages` returns it as
the last element, and bumps the conversation's `updatedAt` to `now` (for
the remote adapter, given fresh message id and a timestamp not older than
the conversation's existing messages). -/
theorem C3_saveMessage_append :
    (∀ (env : LocalStorageChatAdapter.LocalEnv) (now : Nat) (cid : String)
        (m : Message),
      env.browser = true → lookupConv env.stored cid = none →
      LocalStorageChatAdapter.saveMessage env now cid m =
        .error ("Conversation " ++ cid ++ " not found")) ∧
    (∀ (env : LocalStorageChatAdapter.LocalEnv) (now : Nat) (cid : String)
        (m : Message) (c : Conversation),
      env.browser = true → lookupConv env.stored cid = some c →
      ∃ env', LocalStorageChatAdapter.saveMessage env now cid m = .ok env' ∧
        LocalStorageChatAdapter.getMessages env' cid = c.messages ++ [m] ∧
        LocalStorageChatAdapter.getConversation env' cid =
          some (LocalStorageChatAdapter.appendRecompute now m c)) ∧
    (∀ (now : Nat) (m : Message) (c : Conversation),
      (LocalStorageChatAdapter.appendRecompute now m c).updatedAt = now ∧
      (LocalStorageChatAdapter.appendRecompute now m c).messages =
        c.messages ++ [m]) ∧
    (∀ (db : SupaDB) (now : Nat) (cid : String) (m : Message),
      (∀ r ∈ db.conversations, r.id ≠ cid) →
      (∀ r ∈ db.messages, r.id ≠ m.id) →
      SupabaseChatAdapter.saveMessage db now cid m =
        .error "Failed to save message: insert violates foreign key constraint") ∧
    (∀ (db : SupaDB) (now : Nat) (cid : String) (m : Message) (row : ConvRow),
      (∀ r ∈ db.messages, r.id ≠ m.id) →
      row ∈ db.conversations → row.id = cid →
      (∀ r ∈ db.messages, r.conversation_id = cid →
        r.created_at ≤ m.timestamp) →
      ∃ db', SupabaseChatAdapter.saveMessage db now cid m = .ok db' ∧
        SupabaseChatAdapter.getMessages db' cid =
          SupabaseChatAdapter.getMessages db cid ++
            [SupabaseChatAdapter.mapToMessage
              { id := m.id, conversation_id := cid, role := m.role,
                content := m.content, created_at := m.timestamp,
                metadata := m.metadata.getD {} }] ∧
        (∀ r ∈ db'.conversations, r.id = cid → r.updated_at = now)) := by
  refine ⟨?_, ?_, fun now m c => ⟨rfl, rfl⟩, ?_, ?_⟩
  · intro env now cid m hb hc
    unfold LocalStorageChatAdapter.saveMessage
    rw [getAll_of_browser hb]
    simp only [hc]
  · intro env now cid m c hb hc
    refine ⟨LocalStorageChatAdapter.saveAll env
      (updateConv env.stored cid
        (LocalStorageChatAdapter.appendRecompute now m)), ?_, ?_, ?_⟩
    · unfold LocalStorageChatAdapter.saveMessage
      rw [getAll_of_browser hb]
      simp only [hc]
    · unfold LocalStorageChatAdapter.getMessages
      rw [getAll_saveAll hb, lookupConv_updateConv_self, hc]
      rfl
    · unfold LocalStorageChatAdapter.getConversation
      rw [getAll_saveAll hb, lookupConv_updateConv_self, hc]
      rfl
  · intro db now cid m hfresh hmid
    have hanyM : db.messages.any (fun r => r.id == m.id) = false := by
      simp only [List.any_eq_false]
      intro r hr
      simpa using hmid r hr
    have hanyC : db.conversations.any (fun r => r.id == cid) = false := by
      simp only [List.any_eq_false]
      intro r hr
      simpa using hfresh r hr
    unfold SupabaseChatAdapter.saveMessage
    rw [hanyM, hanyC]
    rfl
  · intro db now cid m row hmid hrow hrowid hts
    have hanyM : db.messages.any (fun r => r.id == m.id) = false := by
      simp only [List.any_eq_false]
      intro r hr
      simpa using hmid r hr
    have hanyC : db.conversations.any (fun r => r.id == cid) = true := by
      simp only [List.any_eq_true]
      exact ⟨row, hrow, by simpa using hrowid⟩
    refine ⟨{ db with
        messages := db.messages ++
          [{ id := m.id, conversation_id := cid, role := m.role,
             content := m.content, created_at := m.timestamp,
             metadata := m.metadata.getD {} }]
        conversations := db.conversations.map (fun r =>
          if r.id == cid then { r with updated_at := now } else r) },
      ?_, ?_, ?_⟩
    · unfold SupabaseChatAdapter.saveMessage
      rw [hanyM, hanyC]
      rfl
    · unfold SupabaseChatAdapter.getMessages SupabaseChatAdapter.rowsOf
      simp only [List.filter_append]
      have hnew : List.filter (fun r => r.conversation_id == cid)
          [({ id := m.id, conversation_id := cid, role := m.role,
              content := m.content, created_at := m.timestamp,
              metadata := m.metadata.getD {} } : MessageRow)] =
          [{ id := m.id, conversation_id := cid, role := m.role,
             content := m.content, created_at := m.timestamp,
             metadata := m.metadata.getD {} }] := by
        simp [List.filter]
      rw [hnew]
      rw [@sortAscBy_append_last MessageRow MessageRow.created_at]
      · simp
      · intro x hx
        rw [List.mem_filter] at hx
        exact hts x hx.1 (by simpa using hx.2)
    · intro r hr hrid
      simp only [List.mem_map] at hr
      obtain ⟨r0, hr0, hval⟩ := hr
      by_cases h0 : (r0.id == cid) = true
      · rw [if_pos h0] at hval
        rw [← hval]
      · rw [if_neg h0] at hval
        subst hval
        exact absurd (by simpa using hrid) h0

/-- Witness for C3: saving the user message into "c1" on both adapters;
`getMessages` ends with it and `updatedAt` becomes the save time. -/
theorem C3_saveMessage_append_witness :
    exEnv1.browser = true ∧
    lookupConv exEnv1.stored "c1" =
      some (LocalStorageChatAdapter.createConversation exEnv0 0 "c1"
        (some "Trip Planning")).1 ∧
    LocalStorageChatAdapter.saveMessage exEnv1 1 "c1" exUserMsg =
      .ok exEnv2 ∧
    LocalStorageChatAdapter.getMessages exEnv2 "c1" = [exUserMsg] ∧
    LocalStorageChatAdapter.saveMessage exEnv1 1 "missing" exUserMsg =
      .error "Conversation missing not found" ∧
    SupabaseChatAdapter.saveMessage exDB1 1 "c1" exUserMsg = .ok exDB2 ∧
    SupabaseChatAdapter.getMessages exDB2 "c1" =
      [SupabaseChatAdapter.mapToMessage
        { id := "m1", conversation_id := "c1", role := .user,
          content := "Plan a 3-day trip to Kyoto", created_at := 1,
          metadata := {} }] ∧
    SupabaseChatAdapter.saveMessage exDB1 1 "missing" exUserMsg =
      .error "Failed to save message: insert violates foreign key constraint" := by
  have h1 := C3_saveMessage_append.2.1 exEnv1 1 "c1" exUserMsg
    (LocalStorageChatAdapter.createConversation exEnv0 0 "c1"
      (some "Trip Planning")).1 (by decide) (by decide)
  have h2 := C3_saveMessage_append.1 exEnv1 1 "missing" exUserMsg
    (by decide) (by decide)
  have h3 := C3_saveMessage_append.2.2.2.2 exDB1 1 "c1" exUserMsg
    { id := "c1", title := some "Trip Planning", user_id := some "alice",
      created_at := 0, updated_at := 0,
      metadata := some { totalTokens := some 0, messageCount := some 0,
                         userId := none } }
    (by decide) (by decide) (by decide) (by decide)
  have h4 := C3_saveMessage_append.2.2.2.1 exDB1 1 "missing" exUserMsg
    (by decide) (by decide)
  have hdecL : LocalStorageChatAdapter.saveMessage exEnv1 1 "c1" exUserMsg =
      .ok exEnv2 := by rfl
  have hdecS : SupabaseChatAdapter.saveMessage exDB1 1 "c1" exUserMsg =
      .ok exDB2 := by rfl
  obtain ⟨env', he1, he2, _⟩ := h1
  obtain ⟨db', hd1, hd2, _⟩ := h3
  have henv : env' = exEnv2 := Except.ok.inj (he1.symm.trans hdecL)
  have hdb : db' = exDB2 := Except.ok.inj (hd1.symm.trans hdecS)
  subst henv
  subst hdb
  rw [show SupabaseChatAdapter.getMessages exDB1 "c1" = [] from by rfl]
    at hd2
  refine ⟨by decide, by decide, hdecL, ?_, h2, hdecS, ?_, h4⟩
  · simpa using he2
  · simpa using hd2

/-- Counterexample to C1 as stated: on the local adapter, after the
scenario (create, save user message, save assistant message with 42
tokens), `deleteMessage` of the assistant message succeeds but the caches
are not recomputed: the stored conversation has 1 message with token sum
0, yet `metadata.messageCount = 2` and `metadata.totalTokens = 42`. -/
theorem C1_counterexample :
    LocalStorageChatAdapter.deleteMessage exEnv3 3 "m2" =
      .ok { browser := true, stored := [("c1", exStaleConv)] } ∧
    exStaleConv.messages.length = 1 ∧
    exStaleConv.metadata.bind ConvMetadata.messageCount = some 2 ∧
    sumTokens exStaleConv.messages = 0 ∧
    exStaleConv.metadata.bind ConvMetadata.totalTokens = some 42 ∧
    cacheOk exStaleConv = false :=
  ⟨by rfl, by decide, by decide, by decide, by decide, by decide⟩

/-- C1 (amended): on the local adapter, `createConversation` establishes
the cache invariant and `saveMessage` preserves it (token sum and count
recomputed for the appended message); the scenario read back through the
local adapter yields `totalTokens = 42` and `messageCount = 2`. The other
mutating operations do not recompute the caches, and the remote adapter
never maintains them after creation: the same scenario on the remote
adapter reads back `totalTokens = 0`, `messageCount = 0` beside its 2
messages. -/
theorem C1_cache_invariant :
    (∀ (env : LocalStorageChatAdapter.LocalEnv) (now : Nat) (cid : String)
        (m : Message) (c : Conversation),
      env.browser = true → lookupConv env.stored cid = some c →
      c.metadata.bind ConvMetadata.totalTokens =
        some (sumTokens c.messages) →
      c.metadata.bind ConvMetadata.messageCount = some c.messages.length →
      ∃ env', LocalStorageChatAdapter.saveMessage env now cid m = .ok env' ∧
        LocalStorageChatAdapter.getConversation env' cid =
          some (LocalStorageChatAdapter.appendRecompute now m c) ∧
        (LocalStorageChatAdapter.appendRecompute now m c).metadata.bind
            ConvMetadata.totalTokens =
          some (sumTokens
            (LocalStorageChatAdapter.appendRecompute now m c).messages) ∧
        (LocalStorageChatAdapter.appendRecompute now m c).metadata.bind
            ConvMetadata.messageCount =
          some (LocalStorageChatAdapter.appendRecompute now m
            c).messages.length ∧
        cacheOk (LocalStorageChatAdapter.appendRecompute now m c) = true) ∧
    (∀ (env : LocalStorageChatAdapter.LocalEnv) (now : Nat)
        (freshId : String) (title : Option String),
      cacheOk (LocalStorageChatAdapter.createConversation env now freshId
        title).1 = true) ∧
    ((LocalStorageChatAdapter.getConversation exEnv3 "c1").map
        (fun c => (c.metadata.bind ConvMetadata.totalTokens,
          c.metadata.bind ConvMetadata.messageCount, c.messages.length)) =
      some (some 42, some 2, 2)) ∧
    ((SupabaseChatAdapter.getConversation exDB3 "c1").map
        (fun c => (c.metadata.bind ConvMetadata.totalTokens,
          c.metadata.bind ConvMetadata.messageCount, c.messages.length)) =
      some (some 0, some 0, 2)) := by
  refine ⟨?_, ?_, by rfl, by rfl⟩
  · intro env now cid m c hb hc h1 h2
    refine ⟨LocalStorageChatAdapter.saveAll env
      (updateConv env.stored cid
        (LocalStorageChatAdapter.appendRecompute now m)), ?_, ?_, ?_, ?_, ?_⟩
    · unfold LocalStorageChatAdapter.saveMessage
      rw [getAll_of_browser hb]
      simp only [hc]
    · unfold LocalStorageChatAdapter.getConversation
      rw [getAll_saveAll hb, lookupConv_updateConv_self, hc]
      rfl
    · simp [LocalStorageChatAdapter.appendRecompute, h1,
        sumTokens_append_single]
    · simp [LocalStorageChatAdapter.appendRecompute, h2]
    · simp [cacheOk, LocalStorageChatAdapter.appendRecompute, h1, h2,
        sumTokens_append_single]
  · intro env now freshId title
    rfl

/-- Witness for the amended C1: the state after the user message has
correct caches, and saving the assistant message (42 tokens) preserves
them; the resulting caches equal 42 tokens and 2 messages. -/
theorem C1_cache_invariant_witness :
    exEnv2.browser = true ∧
    lookupConv exEnv2.stored "c1" = some exConvM1 ∧
    exConvM1.metadata.bind ConvMetadata.totalTokens =
      some (sumTokens exConvM1.messages) ∧
    exConvM1.metadata.bind ConvMetadata.messageCount =
      some exConvM1.messages.length ∧
    cacheOk (LocalStorageChatAdapter.appendRecompute 2 exAsstMsg exConvM1) =
      true ∧
    (LocalStorageChatAdapter.appendRecompute 2 exAsstMsg
        exConvM1).metadata.bind ConvMetadata.totalTokens = some 42 ∧
    (LocalStorageChatAdapter.appendRecompute 2 exAsstMsg
        exConvM1).metadata.bind ConvMetadata.messageCount = some 2 := by
  have h := C1_cache_invariant.1 exEnv2 2 "c1" exAsstMsg exConvM1
    (by decide) (by decide) (by decide) (by decide)
  obtain ⟨env', _, _, _, _, h5⟩ := h
  exact ⟨by decide, by decide, by decide, by decide, h5, by decide, by decide⟩

/-! Lemmas about the `updateMessage` scan. -/

theorem updateFirstMsg_append (mid : String) (u : MessageUpdate)
    (ms1 : List Message) (m : Message) (ms2 : List Message)
    (hms1 : ∀ m' ∈ ms1, ¬ (m'.id == mid) = true)
    (hm : (m.id == mid) = true) :
    LocalStorageChatAdapter.updateFirstMsg mid u (ms1 ++ m :: ms2) =
      ms1 ++ applyMessageUpdate m u :: ms2 := by
  induction ms1 with
  | nil => simp [LocalStorageChatAdapter.updateFirstMsg, hm]
  | cons x xs ih =>
    have hx := hms1 x (List.mem_cons_self x xs)
    have ih' := ih (fun m' hm' => hms1 m' (List.mem_cons_of_mem _ hm'))
    simp only [List.cons_append, LocalStorageChatAdapter.updateFirstMsg, hx,
      Bool.false_eq_true, if_false]
    exact congrArg (x :: ·) ih'

theorem updateMessageScan_append_of_none (now : Nat) (mid : String)
    (u : MessageUpdate) (pre rest : ConvRecord)
    (hpre : ∀ p ∈ pre, p.2.messages.any (fun m => m.id == mid) = false) :
    LocalStorageChatAdapter.updateMessageScan now mid u (pre ++ rest) =
      (LocalStorageChatAdapter.updateMessageScan now mid u rest).map
        (pre ++ ·) := by
  induction pre with
  | nil => simp
  | cons p ps ih =>
    have hp := hpre p (List.mem_cons_self p ps)
    rw [List.cons_append, LocalStorageChatAdapter.updateMessageScan, hp]
    simp only [Bool.false_eq_true, if_false]
    rw [ih (fun q hq => hpre q (List.mem_cons_of_mem _ hq))]
    cases LocalStorageChatAdapter.updateMessageScan now mid u rest with
    | none => rfl
    | some r => rfl

theorem updateMessageScan_eq_none (now : Nat) (mid : String)
    (u : MessageUpdate) (convs : ConvRecord)
    (h : ∀ p ∈ convs, p.2.messages.any (fun m => m.id == mid) = false) :
    LocalStorageChatAdapter.updateMessageScan now mid u convs = none := by
  induction convs with
  | nil => rfl
  | cons p ps ih =>
    have hp := h p (List.mem_cons_self p ps)
    rw [LocalStorageChatAdapter.updateMessageScan, hp]
    simp only [Bool.false_eq_true, if_false]
    rw [ih (fun q hq => h q (List.mem_cons_of_mem _ hq))]

/-- Counterexample to C2 as stated: updating the assistant message (whose
bag holds `tokens = 42`) with a partial update supplying only
`metadata = { error := "boom" }` replaces the whole bag instead of merging:
the stored message afterwards has `tokens` absent. -/
theorem C2_counterexample :
    LocalStorageChatAdapter.updateMessage exEnv3 3 "m2" exBoomUpdate =
      .ok { browser := true, stored := [("c1",
        { id := "c1", title := some "Trip Planning",
          messages := [exUserMsg, exBoomedMsg], createdAt := 0,
          updatedAt := 3,
          metadata := some { totalTokens := some 42, messageCount := some 2,
                             userId := none } })] } ∧
    exAsstMsg.metadata.bind MsgMetadata.tokens = some 42 ∧
    exBoomUpdate.metadata = some { error := some "boom" } ∧
    exBoomedMsg.metadata.bind MsgMetadata.tokens = none ∧
    exBoomedMsg.metadata.bind MsgMetadata.error = some "boom" :=
  ⟨by rfl, by decide, by decide, by decide, by decide⟩

/-- C2 (amended): `updateMessage` overwrites each supplied field of the
first matching message; a supplied metadata bag replaces the existing bag
wholesale (it is not merged), while a content-only update changes only the
content; on the local adapter the update bumps the conversation's
`updatedAt` and a missing id fails with the "not found" error, whereas the
remote adapter's `updateMessage` on a missing id is a silent no-op. -/
theorem C2_updateMessage_replaces_metadata :
    (∀ (env : LocalStorageChatAdapter.LocalEnv) (now : Nat) (mid : String)
        (u : MessageUpdate),
      env.browser = true →
      (∀ p ∈ env.stored, ∀ m ∈ p.2.messages, m.id ≠ mid) →
      LocalStorageChatAdapter.updateMessage env now mid u =
        .error ("Message " ++ mid ++ " not found")) ∧
    (∀ (env : LocalStorageChatAdapter.LocalEnv) (now : Nat) (mid : String)
        (u : MessageUpdate) (pre : ConvRecord) (k : String)
        (c : Conversation) (post : ConvRecord) (ms1 : List Message)
        (m : Message) (ms2 : List Message),
      env.browser = true →
      env.stored = pre ++ (k, c) :: post →
      (∀ p ∈ pre, ∀ m' ∈ p.2.messages, m'.id ≠ mid) →
      c.messages = ms1 ++ m :: ms2 →
      m.id = mid →
      (∀ m' ∈ ms1, m'.id ≠ mid) →
      LocalStorageChatAdapter.updateMessage env now mid u =
        .ok { env with stored := pre ++
          (k, { c with
                messages := ms1 ++ applyMessageUpdate m u :: ms2
                updatedAt := now }) :: post }) ∧
    (∀ (m : Message) (md : MsgMetadata),
      applyMessageUpdate m { metadata := some md } =
        { m with metadata := some md }) ∧
    (∀ (m : Message) (s : String),
      applyMessageUpdate m { content := some s } = { m with content := s }) ∧
    (∀ (db : SupaDB) (mid : String) (u : MessageUpdate),
      (∀ r ∈ db.messages, r.id ≠ mid) →
      SupabaseChatAdapter.updateMessage db mid u = db) := by
  refine ⟨?_, ?_, fun m md => rfl, fun m s => rfl, ?_⟩
  · intro env now mid u hb hnone
    have h : ∀ p ∈ env.stored,
        p.2.messages.any (fun m => m.id == mid) = false := by
      intro p hp
      simp only [List.any_eq_false]
      intro m hm
      simpa using hnone p hp m hm
    unfold LocalStorageChatAdapter.updateMessage
    rw [getAll_of_browser hb, updateMessageScan_eq_none now mid u _ h]
  · intro env now mid u pre k c post ms1 m ms2 hb hst hpre hcm hmid hms1
    have hpre' : ∀ p ∈ pre,
        p.2.messages.any (fun m' => m'.id == mid) = false := by
      intro p hp
      simp only [List.any_eq_false]
      intro m' hm'
      simpa using hpre p hp m' hm'
    have hcany : c.messages.any (fun m' => m'.id == mid) = true := by
      simp only [List.any_eq_true]
      refine ⟨m, ?_, by simpa using hmid⟩
      rw [hcm]
      exact List.mem_append_right _ (List.mem_cons_self m ms2)
    unfold LocalStorageChatAdapter.updateMessage
    rw [getAll_of_browser hb, hst,
      updateMessageScan_append_of_none now mid u pre _ hpre']
    rw [LocalStorageChatAdapter.updateMessageScan, hcany]
    simp only [if_true, Option.map_some']
    rw [hcm, updateFirstMsg_append mid u ms1 m ms2
      (fun m' hm' => by simpa using hms1 m' hm') (by simpa using hmid)]
    have hsa : LocalStorageChatAdapter.saveAll env
        (pre ++ (k, { c with
          messages := ms1 ++ applyMessageUpdate m u :: ms2
          updatedAt := now }) :: post) =
        { env with stored := pre ++ (k, { c with
          messages := ms1 ++ applyMessageUpdate m u :: ms2
          updatedAt := now }) :: post } := by
      simp [LocalStorageChatAdapter.saveAll, hb]
    rw [hsa]
  · intro db mid u h
    have hmap : ∀ (l : List MessageRow), (∀ r ∈ l, r.id ≠ mid) →
        l.map (fun r =>
          if r.id == mid then
            { r with
              content := u.content.getD r.content
              metadata := (u.metadata.map id).getD r.metadata }
          else r) = l := by
      intro l hl
      induction l with
      | nil => rfl
      | cons x xs ih =>
        have hx : ¬ (x.id == mid) = true := by
          simpa using hl x (List.mem_cons_self x xs)
        simp only [List.map_cons, hx, Bool.false_eq_true, if_false,
          ih (fun r hr => hl r (List.mem_cons_of_mem _ hr))]
    unfold SupabaseChatAdapter.updateMessage
    rw [hmap db.messages h]

/-- Witness for the amended C2: in the scenario store, updating "m2" with
the metadata-only bag rewrites exactly that message via
`applyMessageUpdate` (replacing its bag) and bumps `updatedAt` to 3;
updating a missing id fails not-found locally and is a no-op remotely. -/
theorem C2_updateMessage_replaces_metadata_witness :
    exEnv3.browser = true ∧
    exEnv3.stored = [] ++ ("c1", exConvFull) :: [] ∧
    exConvFull.messages = [exUserMsg] ++ exAsstMsg :: [] ∧
    exAsstMsg.id = "m2" ∧
    LocalStorageChatAdapter.updateMessage exEnv3 3 "m2" exBoomUpdate =
      .ok { exEnv3 with stored := [] ++
        ("c1", { exConvFull with
          messages := [exUserMsg] ++
            applyMessageUpdate exAsstMsg exBoomUpdate :: []
          updatedAt := 3 }) :: [] } ∧
    LocalStorageChatAdapter.updateMessage exEnv3 3 "missing" exBoomUpdate =
      .error "Message missing not found" ∧
    SupabaseChatAdapter.updateMessage exDB3 "missing" exBoomUpdate =
      exDB3 := by
  refine ⟨by decide, by decide, by decide, by decide, ?_, ?_, ?_⟩
  · exact C2_updateMessage_replaces_metadata.2.1 exEnv3 3 "m2" exBoomUpdate
      [] "c1" exConvFull [] [exUserMsg] exAsstMsg [] (by decide) (by decide)
      (by decide) (by decide) (by decide) (by decide)
  · exact C2_updateMessage_replaces_metadata.1 exEnv3 3 "missing"
      exBoomUpdate (by decide) (by decide)
  · exact C2_updateMessage_replaces_metadata.2.2.2.2 exDB3 "missing"
      exBoomUpdate (by decide)

/-! Lemmas for the ordering claim. -/

theorem lookupConv_of_mem_uniq {convs : ConvRecord} {cid : String}
    {c : Conversation} (hmem : (cid, c) ∈ convs)
    (huniq : ∀ p ∈ convs, p.1 = cid → p.2 = c) :
    lookupConv convs cid = some c := by
  induction convs with
  | nil => cases hmem
  | cons p ps ih =>
    by_cases hp : (p.1 == cid) = true
    · have hv : p.2 = c := huniq p (List.mem_cons_self p ps) (by simpa using hp)
      simp [lookupConv, List.find?, hp, hv]
    · rcases List.mem_cons.mp hmem with rfl | hmem'
      · exact absurd (by simp) hp
      · simp only [lookupConv, List.find?, hp]
        exact ih hmem' (fun q hq => huniq q (List.mem_cons_of_mem _ hq))

theorem supa_listConversations_none (db : SupaDB) :
    SupabaseChatAdapter.listConversations db none =
      (sortDescBy ConvRow.updated_at db.conversations).map
        (fun r => SupabaseChatAdapter.mapToConversation r
          (SupabaseChatAdapter.rowsOf db r.id)) := rfl

theorem supa_listConversations_some (db : SupaDB) (uid : String) :
    SupabaseChatAdapter.listConversations db (some uid) =
      (sortDescBy ConvRow.updated_at
          (db.conversations.filter (fun r => r.user_id == some uid))).map
        (fun r => SupabaseChatAdapter.mapToConversation r
          (SupabaseChatAdapter.rowsOf db r.id)) := rfl

/-- After `updateConversation`, given uniqueness of the updated row, a
strictly fresher `now` than every other row, and scope visibility, the
updated row heads the next listing. -/
theorem supa_update_head (db : SupaDB) (now : Nat) (cid : String)
    (u : ConversationUpdate) (row : ConvRow) (userId : Option String)
    (hmem : row ∈ db.conversations)
    (huniq : ∀ r ∈ db.conversations, r.id = cid → r = row)
    (hrowid : row.id = cid)
    (hscope : match userId with
      | some uid => row.user_id = some uid
      | none => True)
    (hmax : ∀ r ∈ db.conversations, r.id ≠ cid → r.updated_at < now) :
    (SupabaseChatAdapter.listConversations
        (SupabaseChatAdapter.updateConversation db now cid u)
        userId).head? =
      some (SupabaseChatAdapter.mapToConversation
        (SupabaseChatAdapter.applyConvRowUpdate u now row)
        (SupabaseChatAdapter.rowsOf db cid)) := by
  have hg : (row.id == cid) = true := by simpa using hrowid
  have hmm : SupabaseChatAdapter.applyConvRowUpdate u now row ∈
      (SupabaseChatAdapter.updateConversation db now cid u).conversations := by
    unfold SupabaseChatAdapter.updateConversation
    simp only [List.mem_map]
    exact ⟨row, hmem, by simp [hg]⟩
  have hdd : ∀ d ∈
      (SupabaseChatAdapter.updateConversation db now cid u).conversations,
      d ≠ SupabaseChatAdapter.applyConvRowUpdate u now row →
      d.updated_at < now := by
    intro d hd hne
    unfold SupabaseChatAdapter.updateConversation at hd
    simp only [List.mem_map] at hd
    obtain ⟨r, hr, hrd⟩ := hd
    by_cases h1 : (r.id == cid) = true
    · exfalso
      apply hne
      rw [← hrd]
      have hrw : r = row := huniq r hr (by simpa using h1)
      subst hrw
      rw [if_pos h1]
    · have h2 : r.updated_at < now := hmax r hr (by simpa using h1)
      rw [← hrd]
      simp only [h1, Bool.false_eq_true, if_false]
      exact h2
  have hid : (SupabaseChatAdapter.applyConvRowUpdate u now row).id = cid :=
    hrowid
  have hrows : SupabaseChatAdapter.rowsOf
      (SupabaseChatAdapter.updateConversation db now cid u)
      (SupabaseChatAdapter.applyConvRowUpdate u now row).id =
      SupabaseChatAdapter.rowsOf db cid := by
    rw [hid]
    rfl
  cases userId with
  | none =>
    rw [supa_listConversations_none, List.head?_map,
      head_sortDescBy hmm hdd, Option.map_some', hrows]
  | some uid =>
    have hmm' : SupabaseChatAdapter.applyConvRowUpdate u now row ∈
        (SupabaseChatAdapter.updateConversation db now cid
          u).conversations.filter (fun r => r.user_id == some uid) := by
      rw [List.mem_filter]
      refine ⟨hmm, ?_⟩
      have : row.user_id = some uid := hscope
      simpa [SupabaseChatAdapter.applyConvRowUpdate] using this
    have hdd' : ∀ d ∈
        (SupabaseChatAdapter.updateConversation db now cid
          u).conversations.filter (fun r => r.user_id == some uid),
        d ≠ SupabaseChatAdapter.applyConvRowUpdate u now row →
        d.updated_at < now :=
      fun d hd hne => hdd d (List.mem_filter.mp hd).1 hne
    rw [supa_listConversations_some, List.head?_map,
      head_sortDescBy hmm' hdd', Option.map_some', hrows]

/-- C8: on both adapters `listConversations` is sorted by `updatedAt`
descending; and after `updateConversation` on an existing conversation at
a time strictly later than every other conversation's `updatedAt`, that
(updated) conversation is the first element of the next listing (for the
remote adapter, provided it is visible in the bound scope). -/
theorem C8_listConversations_ordering :
    (∀ env : LocalStorageChatAdapter.LocalEnv,
      (LocalStorageChatAdapter.listConversations env).Pairwise
        (fun a b => b.updatedAt ≤ a.updatedAt)) ∧
    (∀ (db : SupaDB) (userId : Option String),
      (SupabaseChatAdapter.listConversations db userId).Pairwise
        (fun a b => b.updatedAt ≤ a.updatedAt)) ∧
    (∀ (env : LocalStorageChatAdapter.LocalEnv) (now : Nat) (cid : String)
        (u : ConversationUpdate) (c : Conversation)
        (env' : LocalStorageChatAdapter.LocalEnv),
      env.browser = true →
      (cid, c) ∈ env.stored →
      (∀ p ∈ env.stored, p.1 = cid → p.2 = c) →
      (∀ p ∈ env.stored, p.1 ≠ cid → p.2.updatedAt < now) →
      LocalStorageChatAdapter.updateConversation env now cid u = .ok env' →
      (LocalStorageChatAdapter.listConversations env').head? =
        some (applyConversationUpdate c u now)) ∧
    (∀ (db : SupaDB) (now : Nat) (cid : String) (u : ConversationUpdate)
        (row : ConvRow) (userId : Option String),
      row ∈ db.conversations →
      (∀ r ∈ db.conversations, r.id = cid → r = row) →
      row.id = cid →
      (match userId with
        | some uid => row.user_id = some uid
        | none => True) →
      (∀ r ∈ db.conversations, r.id ≠ cid → r.updated_at < now) →
      (SupabaseChatAdapter.listConversations
          (SupabaseChatAdapter.updateConversation db now cid u)
          userId).head? =
        some (SupabaseChatAdapter.mapToConversation
          (SupabaseChatAdapter.applyConvRowUpdate u now row)
          (SupabaseChatAdapter.rowsOf db cid))) := by
  refine ⟨?_, ?_, ?_, supa_update_head⟩
  · intro env
    unfold LocalStorageChatAdapter.listConversations
    exact pairwise_sortDescBy _ _
  · intro db userId
    cases userId with
    | none =>
      rw [supa_listConversations_none]
      exact List.pairwise_map.mpr (pairwise_sortDescBy _ _)
    | some uid =>
      rw [supa_listConversations_some]
      exact List.pairwise_map.mpr (pairwise_sortDescBy _ _)
  · intro env now cid u c env' hb hmem huniq hmax hok
    have hlk : lookupConv env.stored cid = some c :=
      lookupConv_of_mem_uniq hmem huniq
    have hupd : LocalStorageChatAdapter.updateConversation env now cid u =
        .ok (LocalStorageChatAdapter.saveAll env (updateConv env.stored cid
          (fun c0 => applyConversationUpdate c0 u now))) := by
      unfold LocalStorageChatAdapter.updateConversation
      rw [getAll_of_browser hb]
      simp only [hlk]
    have henv : env' = LocalStorageChatAdapter.saveAll env
        (updateConv env.stored cid
          (fun c0 => applyConversationUpdate c0 u now)) :=
      Except.ok.inj (hok.symm.trans hupd)
    subst henv
    unfold LocalStorageChatAdapter.listConversations
    rw [getAll_saveAll hb]
    apply head_sortDescBy
    · simp only [convValues, updateConv, List.map_map, List.mem_map]
      refine ⟨(cid, c), hmem, ?_⟩
      simp
    · intro d hd hne
      simp only [convValues, updateConv, List.map_map, List.mem_map] at hd
      obtain ⟨p, hp, hpd⟩ := hd
      by_cases h1 : (p.1 == cid) = true
      · exfalso
        apply hne
        rw [← hpd]
        have hv : p.2 = c := huniq p hp (by simpa using h1)
        simp [Function.comp, h1, hv]
      · have h2 : p.2.updatedAt < now := hmax p hp (by simpa using h1)
        rw [← hpd]
        simpa [Function.comp, h1] using h2

/-- Witness for C8: in a two-conversation store (last touched at times 1
and 2), renaming the older one at time 5 puts it first in the next
listing, on both adapters. -/
theorem C8_listConversations_ordering_witness :
    exEnvTwo.browser = true ∧
    ("c1", exConvA) ∈ exEnvTwo.stored ∧
    LocalStorageChatAdapter.updateConversation exEnvTwo 5 "c1"
      exTitleUpdate = .ok exEnvTwoRenamed ∧
    (LocalStorageChatAdapter.listConversations exEnvTwoRenamed).head? =
      some (applyConversationUpdate exConvA exTitleUpdate 5) ∧
    exRowA ∈ exDBab.conversations ∧
    (SupabaseChatAdapter.listConversations
        (SupabaseChatAdapter.updateConversation exDBab 5 "ca"
          exTitleUpdate) none).head? =
      some (SupabaseChatAdapter.mapToConversation
        (SupabaseChatAdapter.applyConvRowUpdate exTitleUpdate 5 exRowA)
        (SupabaseChatAdapter.rowsOf exDBab "ca")) := by
  refine ⟨by decide, by decide, by rfl, ?_, by decide, ?_⟩
  · exact C8_listConversations_ordering.2.2.1 exEnvTwo 5 "c1" exTitleUpdate
      exConvA exEnvTwoRenamed (by decide) (by decide) (by decide)
      (by decide) (by rfl)
  · exact C8_listConversations_ordering.2.2.2 exDBab 5 "ca" exTitleUpdate
      exRowA none (by decide) (by decide) (by decide) trivial (by decide)

end AgenticWeb
